import Mathlib

/-!
Verification development for the Deribit options-snapshot normalization pipeline
(files samples/deribit_iron_condor_study.py and samples/deribit_ironcondor_monolith.py).

The Python code is shallowly embedded:
* Python scalar/list values are the inductive type PyVal; Python floats are PyFloat.
  Finite floats are modelled as exact fractions (PRat, an integer numerator with a
  positive natural denominator); the rounding of decimal literals to binary floats
  is immaterial to every property proved here.
* Fallible Python code returns Except PyErr; a raised, uncaught exception is .error.
* pandas DataFrames are Table (a column-name list plus rows of cells); row labels
  are carried explicitly as Nat tags.
-/

set_option maxHeartbeats 1000000
set_option maxRecDepth 100000

/-! ## Exact fractions with positive denominator (kept unnormalized so that all
arithmetic reduces in the kernel; comparisons cross-multiply) -/

/-- an exact fraction num/den with den > 0. -/
structure PRat where
  num : ℤ
  den : ℕ
  den_pos : 0 < den

instance : DecidableEq PRat := fun a b =>
  decidable_of_iff (a.num = b.num ∧ a.den = b.den) (by
    cases a; cases b; simp)

namespace PRat

/-- fraction constructor; a zero denominator falls back to den 1. -/
def pr (n : ℤ) (d : ℕ) : PRat :=
  if h : 0 < d then ⟨n, d, h⟩ else ⟨n, 1, one_pos⟩

def ofInt (n : ℤ) : PRat := ⟨n, 1, one_pos⟩

def add (a b : PRat) : PRat :=
  ⟨a.num * (b.den : ℤ) + b.num * (a.den : ℤ), a.den * b.den, Nat.mul_pos a.den_pos b.den_pos⟩

def mul (a b : PRat) : PRat :=
  ⟨a.num * b.num, a.den * b.den, Nat.mul_pos a.den_pos b.den_pos⟩

def neg (a : PRat) : PRat := ⟨-a.num, a.den, a.den_pos⟩

def inv (a : PRat) : PRat :=
  if h : 0 < a.num then ⟨(a.den : ℤ), a.num.toNat, by omega⟩
  else if h2 : a.num < 0 then ⟨-(a.den : ℤ), a.num.natAbs, by omega⟩
  else ⟨0, 1, one_pos⟩

def div (a b : PRat) : PRat := a.mul b.inv

def pow10 (k : ℕ) : PRat := ⟨(10 : ℤ) ^ k, 1, one_pos⟩

/-- value equality (the fractions denote the same rational). -/
def qeq (a b : PRat) : Bool := decide (a.num * (b.den : ℤ) = b.num * (a.den : ℤ))

/-- value order. -/
def qle (a b : PRat) : Bool := decide (a.num * (b.den : ℤ) ≤ b.num * (a.den : ℤ))

def qlt (a b : PRat) : Bool := decide (a.num * (b.den : ℤ) < b.num * (a.den : ℤ))

def isZero (a : PRat) : Bool := a.num == 0

def isPos (a : PRat) : Bool := decide (0 < a.num)

def isNonPos (a : PRat) : Bool := decide (a.num ≤ 0)

end PRat

/-- Python exception classes that the embedded code can raise. -/
inductive PyErr where
  | typeError
  | valueError
  | keyError (col : String)
  | attributeError
  | indexError
  deriving DecidableEq

/-- A Python / NumPy float: finite value (exact fraction), NaN, or signed infinity. -/
inductive PyFloat where
  | finite (q : PRat)
  | nan
  | inf
  | ninf
  deriving DecidableEq

/-- A Python value as it can appear in a DataFrame cell or inside a parsed ladder.
dt n models a pandas Timestamp / datetime carrying its encoded calendar value;
complexv, setv and ellipsis arise only out of ast.literal_eval (complex and
imaginary literals, set displays, "..."), never as frame cells. -/
inductive PyVal where
  | none
  | num (f : PyFloat)
  | int (n : ℤ)
  | bool (b : Bool)
  | str (s : String)
  | list (xs : List PyVal)
  | tuple (xs : List PyVal)
  | dict (kvs : List (PyVal × PyVal))
  | dt (n : ℕ)
  | complexv (re im : PyFloat)
  | setv (xs : List PyVal)
  | ellipsis

namespace PyFloat

/-- value > 0 in float comparison semantics (NaN compares false). -/
def pos : PyFloat → Bool
  | finite q => q.isPos
  | inf => true
  | nan => false
  | ninf => false

/-- value <= 0 in float comparison semantics (NaN compares false). -/
def le0 : PyFloat → Bool
  | finite q => q.isNonPos
  | inf => false
  | nan => false
  | ninf => true

/-- pd.isna on a float scalar. -/
def isna : PyFloat → Bool
  | nan => true
  | _ => false

end PyFloat

namespace PyVal

/-- Python truthiness (bool(v)). bool(float('nan')) is True. -/
def truthy : PyVal → Bool
  | none => false
  | num (.finite q) => !q.isZero
  | num .nan => true
  | num .inf => true
  | num .ninf => true
  | int n => !(n == 0)
  | bool b => b
  | str s => !(s == "")
  | list xs => !xs.isEmpty
  | tuple xs => !xs.isEmpty
  | dict kvs => !kvs.isEmpty
  | dt _ => true
  | complexv (.finite a) (.finite b) => !(a.isZero && b.isZero)
  | complexv _ _ => true
  | setv xs => !xs.isEmpty
  | ellipsis => true

/-- Number of scalar entries np.array(v) would hold (used for the truth value of
pd.isna on a non-scalar argument). -/
def nestedSize : PyVal → ℕ
  | list xs => sizeList xs
  | tuple xs => sizeList xs
  | _ => 1
where
  sizeList : List PyVal → ℕ
  | [] => 0
  | x :: xs => nestedSize x + sizeList xs

/-- pd.isna of a scalar value. -/
def isnaScalar : PyVal → Bool
  | none => true
  | num .nan => true
  | _ => false

/-- Python == equality (int/float/bool compare by value, NaN is not equal
to anything including itself, containers compare elementwise). -/
def pyEq : PyVal → PyVal → Bool
  | none, none => true
  | num (.finite q), num (.finite r) => q.qeq r
  | num (.finite q), int m => q.qeq (PRat.ofInt m)
  | num (.finite q), bool b => q.qeq (PRat.ofInt (if b then 1 else 0))
  | int n, num (.finite r) => (PRat.ofInt n).qeq r
  | int n, int m => n == m
  | int n, bool b => n == (if b then 1 else 0)
  | bool a, bool b => a == b
  | bool b, int m => (if b then (1 : ℤ) else 0) == m
  | bool b, num (.finite r) => (PRat.ofInt (if b then 1 else 0)).qeq r
  | num .inf, num .inf => true
  | num .ninf, num .ninf => true
  | str a, str b => a == b
  | list xs, list ys => eqList xs ys
  | tuple xs, tuple ys => eqList xs ys
  | dt a, dt b => a == b
  | _, _ => false
where
  eqList : List PyVal → List PyVal → Bool
  | [], [] => true
  | x :: xs, y :: ys => pyEq x y && eqList xs ys
  | _, _ => false

end PyVal

/-- Truth value of `if pd.isna(v):` — a scalar gives a Bool; a sequence becomes a
NumPy array whose truth value raises ValueError unless it has exactly one entry. -/
def pdIsnaTruth : PyVal → Except PyErr Bool
  | .list xs =>
      if (xs.map PyVal.nestedSize).sum = 1 then
        .ok (firstScalarIsna (.list xs))
      else
        .error .valueError
  | .tuple xs =>
      if (xs.map PyVal.nestedSize).sum = 1 then
        .ok (firstScalarIsna (.tuple xs))
      else
        .error .valueError
  | v => .ok v.isnaScalar
where
  /-- the isna flag of the first scalar inside a nested sequence. -/
  firstScalarIsna : PyVal → Bool
  | .list (x :: _) => firstScalarIsna x
  | .tuple (x :: _) => firstScalarIsna x
  | .list [] => false
  | .tuple [] => false
  | v => v.isnaScalar

/-- v[i] for a Nat index (Python subscription). -/
def pySubscr (v : PyVal) (i : ℕ) : Except PyErr PyVal :=
  match v with
  | .list xs => match xs.get? i with
      | some x => .ok x
      | Option.none => .error .indexError
  | .tuple xs => match xs.get? i with
      | some x => .ok x
      | Option.none => .error .indexError
  | .str s => match s.toList.get? i with
      | some c => .ok (.str (String.mk [c]))
      | Option.none => .error .indexError
  | .dict kvs => match kvs.find? (fun kv => PyVal.pyEq kv.1 (.int (Int.ofNat i))) with
      | some kv => .ok kv.2
      | Option.none => .error (.keyError (toString i))
  | _ => .error .typeError

/-! ## Python float(...) and pandas numeric coercion -/

/-- decimal digit test. -/
def isDigitChar (c : Char) : Bool := decide ('0' ≤ c) && decide (c ≤ '9')

/-- Python str.strip() whitespace class (ASCII part). -/
def isSpaceChar (c : Char) : Bool :=
  c == ' ' || c == '\t' || c == '\n' || c == '\r' || c == '\x0b' || c == '\x0c'

/-- Python s.strip(). -/
def pyStripChars (cs : List Char) : List Char :=
  ((cs.dropWhile isSpaceChar).reverse.dropWhile isSpaceChar).reverse

/-- Python s.strip() on a String. -/
def pyStrip (s : String) : String := String.mk (pyStripChars s.toList)

/-- Python s.lower() (ASCII). -/
def pyLower (s : String) : String := String.mk (s.toList.map Char.toLower)

/-- Python s.upper() (ASCII). -/
def pyUpper (s : String) : String := String.mk (s.toList.map Char.toUpper)

/-- split a character list on a separator character (Python s.split(sep)). -/
def splitOnChar (c : Char) : List Char → List (List Char)
  | [] => [[]]
  | x :: xs =>
    match splitOnChar c xs with
    | g :: gs => if x == c then [] :: g :: gs else (x :: g) :: gs
    | [] => if x == c then [[], []] else [[x]]

/-- Python s.split("-") on a String. -/
def pySplitDash (s : String) : List String :=
  (splitOnChar '-' s.toList).map String.mk

/-- numeric value of a digit string. -/
def digitsToNat (ds : List Char) : ℕ :=
  ds.foldl (fun a c => a * 10 + (c.toNat - 48)) 0

/-- mantissa/exponent to an exact fraction. -/
def sciVal (neg : Bool) (ip fp : List Char) (eneg : Bool) (ed : List Char) : PRat :=
  let mant := (PRat.ofInt (digitsToNat ip)).add
    ((PRat.ofInt (digitsToNat fp)).div (PRat.pow10 fp.length))
  let scaled := if eneg then mant.div (PRat.pow10 (digitsToNat ed))
                else mant.mul (PRat.pow10 (digitsToNat ed))
  if neg then scaled.neg else scaled

/-- Python float(string) on the stripped character list: optional sign, then
inf/infinity/nan (case-insensitive) or a decimal numeral with optional fraction
and exponent.  (Underscore digit separators and hex floats are outside the
modelled grammar.)  Raises ValueError on anything else. -/
def parseFloatChars (cs : List Char) : Except PyErr PyFloat :=
  let signed := match cs with
    | '+' :: r => (false, r)
    | '-' :: r => (true, r)
    | r => (false, r)
  let neg := signed.1
  let cs1 := signed.2
  let lower := String.mk (cs1.map Char.toLower)
  if lower = "inf" ∨ lower = "infinity" then .ok (if neg then .ninf else .inf)
  else if lower = "nan" then .ok .nan
  else
    let ipr := cs1.span isDigitChar
    let ip := ipr.1
    let fpr := match ipr.2 with
      | '.' :: r => r.span isDigitChar
      | r => ([], r)
    let fp := fpr.1
    if ip.isEmpty && fp.isEmpty then .error .valueError
    else
      match fpr.2 with
      | [] => .ok (.finite (sciVal neg ip fp false []))
      | e :: r3 =>
        if e == 'e' || e == 'E' then
          let esigned := match r3 with
            | '+' :: r => (false, r)
            | '-' :: r => (true, r)
            | r => (false, r)
          let edr := esigned.2.span isDigitChar
          if edr.1.isEmpty || !edr.2.isEmpty then .error .valueError
          else .ok (.finite (sciVal neg ip fp esigned.1 edr.1))
        else .error .valueError

/-- Python float(s) for a string: whitespace is stripped first. -/
def parseFloatStr (s : String) : Except PyErr PyFloat :=
  parseFloatChars (pyStripChars s.toList)

/-- Python float(v) on an arbitrary value. -/
def pyFloatOf : PyVal → Except PyErr PyFloat
  | .num f => .ok f
  | .int n => .ok (.finite (PRat.ofInt n))
  | .bool b => .ok (.finite (PRat.ofInt (if b then 1 else 0)))
  | .str s => parseFloatStr s
  | _ => .error .typeError

/-- pd.to_numeric(v, errors="coerce") on one cell: numbers pass through, numeric
strings are parsed, everything unconvertible becomes NaN. -/
def toNumeric : PyVal → PyFloat
  | .none => .nan
  | .num f => f
  | .int n => .finite (PRat.ofInt n)
  | .bool b => .finite (PRat.ofInt (if b then 1 else 0))
  | .str s => match parseFloatStr s with
      | .ok f => f
      | .error _ => .nan
  | _ => .nan

/-! ## Python str()/repr() (needed because _parse_l1_from_book stringifies its
argument before parsing) -/

/-- least k with den dividing 10^k, if any (bounded search; every denominator of
a binary-float value is of the form 2^a * 5^b and is found). -/
def pow10Exp (den : ℕ) : Option ℕ :=
  (List.range 65).find? (fun k => 10 ^ k % den == 0)

/-- Python repr of a float (decimal expansion; values that are not binary-float
representable fall back to a fraction spelling, which no modelled input produces). -/
def floatRepr : PyFloat → String
  | .nan => "nan"
  | .inf => "inf"
  | .ninf => "-inf"
  | .finite q =>
    match pow10Exp q.den with
    | some k =>
      let scaled : ℕ := (q.num.natAbs * (10 ^ k / q.den))
      let ds := toString scaled
      let pad := if ds.length < k + 1 then String.mk (List.replicate (k + 1 - ds.length) '0') ++ ds else ds
      let ipart := String.mk (pad.toList.take (pad.length - k))
      let fpart := String.mk (pad.toList.drop (pad.length - k))
      (if q.num < 0 then "-" else "") ++ ipart ++ "." ++ (if k = 0 then "0" else fpart)
    | Option.none => toString q.num ++ "/" ++ toString q.den

/-- Python repr(v).  String escaping inside nested reprs is not modelled. -/
def pyRepr : PyVal → String
  | .none => "None"
  | .bool b => if b then "True" else "False"
  | .int n => toString n
  | .num f => floatRepr f
  | .str s => "'" ++ s ++ "'"
  | .list xs => "[" ++ reprList xs ++ "]"
  | .tuple [x] => "(" ++ pyRepr x ++ ",)"
  | .tuple xs => "(" ++ reprList xs ++ ")"
  | .dict kvs => "\x7b" ++ reprKVs kvs ++ "\x7d"
  | .dt n => toString n
  | .complexv re im => "(" ++ floatRepr re ++ "+" ++ floatRepr im ++ "j)"
  | .setv xs => "\x7b" ++ reprList xs ++ "\x7d"
  | .ellipsis => "Ellipsis"
where
  reprList : List PyVal → String
  | [] => ""
  | [x] => pyRepr x
  | x :: xs => pyRepr x ++ ", " ++ reprList xs
  reprKVs : List (PyVal × PyVal) → String
  | [] => ""
  | [kv] => pyRepr kv.1 ++ ": " ++ pyRepr kv.2
  | kv :: kvs => pyRepr kv.1 ++ ": " ++ pyRepr kv.2 ++ ", " ++ reprKVs kvs

/-- Python str(v). -/
def pyStr : PyVal → String
  | .str s => s
  | v => pyRepr v

/-! ## ast.literal_eval, modelled as a purely structural parser
(no name lookup and no code execution: only literal displays are accepted).
Modelled grammar: decimal, hex, octal and binary integers with digit-group
underscores and the lexer's leading-zero rule, floats, imaginary literals and
the real-plus-or-minus-imaginary complex constant rule, None/True/False and
Ellipsis, quoted strings without escape sequences, list/tuple/set/dict
displays, comments and backslash line continuations.  Everything else is a
parse error, which is exactly the ValueError/SyntaxError behaviour the callers
catch.  The literal forms left outside the modelled grammar (bytes and raw or
escaped string literals, adjacent string concatenation, bare top-level tuples)
all evaluate to strings, bytes or tuples, on which the first-level extraction
below returns None — the same result its parse-error branch yields — so the
difference is unobservable to both callers. -/

/-- skip Python source whitespace, comments (stripped by the tokenizer even in
eval mode) and backslash line continuations; every step consumes at least one
character, so the list length is enough fuel. -/
def lexWsF : ℕ → List Char → List Char
  | 0, cs => cs
  | Nat.succ f, cs =>
    match cs with
    | ' ' :: r => lexWsF f r
    | '\t' :: r => lexWsF f r
    | '\n' :: r => lexWsF f r
    | '\r' :: r => lexWsF f r
    | '\\' :: '\n' :: r => lexWsF f r
    | '#' :: r => lexWsF f (r.dropWhile (fun c => !(c == '\n')))
    | cs => cs

def lexWs (cs : List Char) : List Char := lexWsF cs.length cs

/-- letter test for keyword scanning. -/
def isAlphaChar (c : Char) : Bool :=
  (decide ('a' ≤ c) && decide (c ≤ 'z')) || (decide ('A' ≤ c) && decide (c ≤ 'Z'))

/-- hexadecimal digit test. -/
def isHexChar (c : Char) : Bool :=
  isDigitChar c || (decide ('a' ≤ c) && decide (c ≤ 'f')) ||
    (decide ('A' ≤ c) && decide (c ≤ 'F'))

/-- octal digit test. -/
def isOctChar (c : Char) : Bool := decide ('0' ≤ c) && decide (c ≤ '7')

/-- binary digit test. -/
def isBinChar (c : Char) : Bool := c == '0' || c == '1'

/-- the numeric value of one digit in any base up to 16. -/
def hexVal (c : Char) : ℕ :=
  if isDigitChar c then c.toNat - '0'.toNat
  else if decide ('a' ≤ c) && decide (c ≤ 'f') then c.toNat - 'a'.toNat + 10
  else c.toNat - 'A'.toNat + 10

/-- digit-list value in base b. -/
def digitsToNatBase (b : ℕ) (ds : List Char) : ℕ :=
  ds.foldl (fun acc c => acc * b + hexVal c) 0

/-- Python digit group (["_"] digit)+, a single underscore allowed before each
digit (the form a base prefix admits); returns the digits with the underscores
removed, stopping before any malformed tail. -/
def spanGroupedDigits (isD : Char → Bool) : List Char → List Char × List Char
  | '_' :: d :: r =>
    if isD d then
      let p := spanGroupedDigits isD r
      (d :: p.1, p.2)
    else ([], '_' :: d :: r)
  | d :: r =>
    if isD d then
      let p := spanGroupedDigits isD r
      (d :: p.1, p.2)
    else ([], d :: r)
  | [] => ([], [])

/-- Python decimal digit run digit (["_"] digit)*: like spanGroupedDigits but a
leading underscore is not consumed (it would lex as a name). -/
def spanDigitsU (isD : Char → Bool) (cs : List Char) : List Char × List Char :=
  match cs with
  | d :: _ => if isD d then spanGroupedDigits isD cs else ([], cs)
  | [] => ([], cs)

/-- a numeric literal (after an optional already-consumed sign): an int for a
plain integer literal (base prefixes 0x/0o/0b included, underscores between
digits allowed, and leading zeros rejected as in the Python lexer), a float
when fraction or exponent is present, a complex for a j/J-suffixed imaginary
literal. -/
def litNum (neg : Bool) (cs : List Char) : Except Unit (PyVal × List Char) :=
  match cs with
  | '0' :: c :: r =>
    if c == 'x' || c == 'X' then litIntBase neg 16 isHexChar r
    else if c == 'o' || c == 'O' then litIntBase neg 8 isOctChar r
    else if c == 'b' || c == 'B' then litIntBase neg 2 isBinChar r
    else litDec neg ('0' :: c :: r)
  | cs => litDec neg cs
where
  litIntBase (neg : Bool) (b : ℕ) (isD : Char → Bool) (r : List Char) :
      Except Unit (PyVal × List Char) :=
    let p := spanGroupedDigits isD r
    if p.1.isEmpty then .error ()
    else .ok (.int (if neg then -(digitsToNatBase b p.1 : ℤ)
                    else (digitsToNatBase b p.1 : ℤ)), p.2)
  litDec (neg : Bool) (cs : List Char) : Except Unit (PyVal × List Char) :=
    let ipr := spanDigitsU isDigitChar cs
    let ip := ipr.1
    let hasDot := match ipr.2 with
      | '.' :: _ => true
      | _ => false
    let fpr := match ipr.2 with
      | '.' :: r => spanDigitsU isDigitChar r
      | r => ([], r)
    let fp := fpr.1
    if ip.isEmpty && fp.isEmpty then .error ()
    else
      match fpr.2 with
      | 'e' :: r3 =>
        litNumExp neg ip fp r3
      | 'E' :: r3 =>
        litNumExp neg ip fp r3
      | 'j' :: r3 =>
        .ok (.complexv (.finite (PRat.ofInt 0)) (.finite (sciVal neg ip fp false [])), r3)
      | 'J' :: r3 =>
        .ok (.complexv (.finite (PRat.ofInt 0)) (.finite (sciVal neg ip fp false [])), r3)
      | rest =>
        if hasDot then
          .ok (.num (.finite (sciVal neg ip fp false [])), rest)
        else if 1 < ip.length ∧ ip.headD ' ' = '0' ∧ ip.any (fun c => !(c == '0')) then
          .error ()
        else
          .ok (.int (if neg then -(digitsToNat ip : ℤ) else (digitsToNat ip : ℤ)), rest)
  litNumExp (neg : Bool) (ip fp : List Char) (r3 : List Char) : Except Unit (PyVal × List Char) :=
    let esigned := match r3 with
      | '+' :: r => (false, r)
      | '-' :: r => (true, r)
      | r => (false, r)
    let edr := spanDigitsU isDigitChar esigned.2
    if edr.1.isEmpty then .error ()
    else
      match edr.2 with
      | 'j' :: r4 =>
        .ok (.complexv (.finite (PRat.ofInt 0)) (.finite (sciVal neg ip fp esigned.1 edr.1)), r4)
      | 'J' :: r4 =>
        .ok (.complexv (.finite (PRat.ofInt 0)) (.finite (sciVal neg ip fp esigned.1 edr.1)), r4)
      | r4 => .ok (.num (.finite (sciVal neg ip fp esigned.1 edr.1)), r4)

/-- a quoted string literal body (escape sequences outside the modelled grammar). -/
def litStr (q : Char) (cs : List Char) : Except Unit (PyVal × List Char) :=
  let body := cs.span (fun c => !(c == q) && !(c == '\\'))
  match body.2 with
  | c :: r => if c == q then .ok (.str (String.mk body.1), r) else .error ()
  | [] => .error ()

/-- the float value of an int/float/bool literal (the real part a complex
binop takes from its left operand). -/
def pyNumFloat : PyVal → PyFloat
  | .int n => .finite (PRat.ofInt n)
  | .num f => f
  | .bool b => .finite (PRat.ofInt (if b then 1 else 0))
  | _ => .nan

/-- float negation. -/
def fnegF : PyFloat → PyFloat
  | .finite q => .finite q.neg
  | .nan => .nan
  | .inf => .ninf
  | .ninf => .inf

/-- after a real-number literal (ast.literal_eval's BinOp rule): an optional
+ or - followed by an unsigned imaginary literal makes a complex constant
(left plus or minus right, the right operand purely imaginary); anything else is left in place.
The left operand may be signed and, as in the source, a bool (bool is an int
subclass); a complex left operand is not accepted. -/
def litAfterNum : Except Unit (PyVal × List Char) → Except Unit (PyVal × List Char)
  | .error e => .error e
  | .ok (v, rest) =>
    match v with
    | .int n => tryImag (.int n) rest
    | .num f => tryImag (.num f) rest
    | .bool b => tryImag (.bool b) rest
    | v => .ok (v, rest)
where
  tryImag (v : PyVal) (rest : List Char) : Except Unit (PyVal × List Char) :=
    match lexWs rest with
    | '+' :: r2 =>
      (match litNum false (lexWs r2) with
       | .ok (.complexv _ im, r3) => .ok (.complexv (pyNumFloat v) im, r3)
       | _ => .ok (v, rest))
    | '-' :: r2 =>
      (match litNum false (lexWs r2) with
       | .ok (.complexv _ im, r3) => .ok (.complexv (pyNumFloat v) (fnegF im), r3)
       | _ => .ok (v, rest))
    | _ => .ok (v, rest)

mutual

/-- one literal value starting at the head of the stream. -/
def litVal : ℕ → List Char → Except Unit (PyVal × List Char)
  | 0, _ => .error ()
  | Nat.succ fuel, cs =>
    match lexWs cs with
    | '[' :: r =>
      (match lexWs r with
       | ']' :: r2 => .ok (.list [], r2)
       | _ => do
         let xr ← litVal fuel r
         let sr ← litSeq fuel xr.2 ']'
         .ok (.list (xr.1 :: sr.1), sr.2))
    | '(' :: r =>
      (match lexWs r with
       | ')' :: r2 => .ok (.tuple [], r2)
       | _ => do
         let xr ← litVal fuel r
         match lexWs xr.2 with
         | ')' :: r3 => .ok (xr.1, r3)
         | ',' :: r3 =>
           (match lexWs r3 with
            | ')' :: r4 => .ok (.tuple [xr.1], r4)
            | _ => do
              let yr ← litVal fuel r3
              let sr ← litSeq fuel yr.2 ')'
              .ok (.tuple (xr.1 :: yr.1 :: sr.1), sr.2))
         | _ => .error ())
    | '\x7b' :: r =>
      (match lexWs r with
       | '\x7d' :: r2 => .ok (.dict [], r2)
       | _ => do
         let kr ← litVal fuel r
         match lexWs kr.2 with
         | ':' :: r3 => do
           let vr ← litVal fuel r3
           let dr ← litDictRest fuel vr.2
           .ok (.dict ((kr.1, vr.1) :: dr.1), dr.2)
         | _ => do
           let sr ← litSeq fuel kr.2 '\x7d'
           .ok (.setv (kr.1 :: sr.1), sr.2))
    | '\'' :: r => litStr '\'' r
    | '"' :: r => litStr '"' r
    | '.' :: '.' :: '.' :: r => .ok (.ellipsis, r)
    | '-' :: r => litAfterNum (litNum true (lexWs r))
    | '+' :: r => litAfterNum (litNum false (lexWs r))
    | c :: r =>
      if isAlphaChar c then
        let w := (c :: r).span isAlphaChar
        let word := String.mk w.1
        if word = "None" then .ok (.none, w.2)
        else if word = "True" then litAfterNum (.ok (.bool true, w.2))
        else if word = "False" then litAfterNum (.ok (.bool false, w.2))
        else .error ()
      else litAfterNum (litNum false (c :: r))
    | [] => .error ()

/-- remaining comma-separated elements of a sequence display, up to close. -/
def litSeq : ℕ → List Char → Char → Except Unit (List PyVal × List Char)
  | 0, _, _ => .error ()
  | Nat.succ fuel, cs, close =>
    match lexWs cs with
    | c :: r =>
      if c == close then .ok ([], r)
      else if c == ',' then
        match lexWs r with
        | c2 :: r2 =>
          if c2 == close then .ok ([], r2)
          else do
            let xr ← litVal fuel (c2 :: r2)
            let sr ← litSeq fuel xr.2 close
            .ok (xr.1 :: sr.1, sr.2)
        | [] => .error ()
      else .error ()
    | [] => .error ()

/-- remaining comma-separated key: value pairs of a dict display. -/
def litDictRest : ℕ → List Char → Except Unit (List (PyVal × PyVal) × List Char)
  | 0, _ => .error ()
  | Nat.succ fuel, cs =>
    match lexWs cs with
    | '\x7d' :: r => .ok ([], r)
    | ',' :: r =>
      (match lexWs r with
       | '\x7d' :: r2 => .ok ([], r2)
       | _ => do
         let kr ← litVal fuel r
         match lexWs kr.2 with
         | ':' :: r3 => do
           let vr ← litVal fuel r3
           let dr ← litDictRest fuel vr.2
           .ok ((kr.1, vr.1) :: dr.1, dr.2)
         | _ => .error ())
    | _ => .error ()

end

/-- ast.literal_eval(s): parse one literal and require the input to be exhausted. -/
def literalEval (s : String) : Except Unit PyVal :=
  match litVal (2 * s.length + 8) s.toList with
  | .ok (v, rest) => if (lexWs rest).isEmpty then .ok v else .error ()
  | .error _ => .error ()

/-! ## Decidable equality for PyVal (nested inductive, so written by hand) -/

/-- structural equality test for PyVal. -/
def PyVal.beq : PyVal → PyVal → Bool
  | .none, .none => true
  | .num a, .num b => a == b
  | .int a, .int b => a == b
  | .bool a, .bool b => a == b
  | .str a, .str b => a == b
  | .list xs, .list ys => beqL xs ys
  | .tuple xs, .tuple ys => beqL xs ys
  | .dict xs, .dict ys => beqKV xs ys
  | .dt a, .dt b => a == b
  | .complexv a b, .complexv c d => a == c && b == d
  | .setv xs, .setv ys => beqL xs ys
  | .ellipsis, .ellipsis => true
  | _, _ => false
where
  beqL : List PyVal → List PyVal → Bool
  | [], [] => true
  | x :: xs, y :: ys => PyVal.beq x y && beqL xs ys
  | _, _ => false
  beqKV : List (PyVal × PyVal) → List (PyVal × PyVal) → Bool
  | [], [] => true
  | kv :: xs, kv2 :: ys => PyVal.beq kv.1 kv2.1 && PyVal.beq kv.2 kv2.2 && beqKV xs ys
  | _, _ => false

theorem PyVal.beq_iff : ∀ a b : PyVal, PyVal.beq a b = true ↔ a = b := by
  apply PyVal.beq.induct
    (fun xs ys => PyVal.beq.beqL xs ys = true ↔ xs = ys)
    (fun a b => PyVal.beq a b = true ↔ a = b)
    (fun xs ys => PyVal.beq.beqKV xs ys = true ↔ xs = ys)
  case case13 =>
    intro t x h1 h2 h3 h4 h5 h6 h7 h8 h9 h10 h11 h12
    cases t <;> cases x <;> simp_all [PyVal.beq]
  case case16 =>
    intro t x h1 h2
    cases t <;> cases x <;> simp_all [PyVal.beq.beqL]
    intro hh ht
    exact h2 _ _ _ _ rfl rfl rfl ht.symm
  case case19 =>
    intro t x h1 h2
    cases t <;> cases x <;> simp_all [PyVal.beq.beqKV, Prod.ext_iff]
    intro hp hq hr
    exact h2 _ _ _ _ _ _ rfl rfl rfl rfl rfl hr.symm
  all_goals intros
  all_goals simp_all [PyVal.beq, PyVal.beq.beqL, PyVal.beq.beqKV, Prod.ext_iff]

instance : DecidableEq PyVal := fun a b => decidable_of_iff _ (PyVal.beq_iff a b)

instance {ε α : Type} [DecidableEq ε] [DecidableEq α] : DecidableEq (Except ε α) := fun x y =>
  match x, y with
  | .ok a, .ok b =>
      if h : a = b then .isTrue (by rw [h]) else .isFalse (by simp [h])
  | .error a, .error b =>
      if h : a = b then .isTrue (by rw [h]) else .isFalse (by simp [h])
  | .ok _, .error _ => .isFalse (by simp)
  | .error _, .ok _ => .isFalse (by simp)

/-! ## Expiry dates (strptime format "%d%b%y", used by both variants) -/

/-- three-letter month abbreviations, %b (matched case-insensitively). -/
def monthNum (s : String) : Option ℕ :=
  (["JAN", "FEB", "MAR", "APR", "MAY", "JUN",
    "JUL", "AUG", "SEP", "OCT", "NOV", "DEC"].indexOf? (pyUpper s)).map (· + 1)

/-- Gregorian leap year. -/
def isLeapYear (y : ℕ) : Bool :=
  y % 4 == 0 && (y % 100 != 0 || y % 400 == 0)

/-- days in a month. -/
def daysInMonth (y m : ℕ) : ℕ :=
  if m = 2 then (if isLeapYear y then 29 else 28)
  else if m = 4 ∨ m = 6 ∨ m = 9 ∨ m = 11 then 30
  else 31

/-- strptime(s, "%d%b%y") with the library's two-digit-year pivot (00-68 → 20xx),
validated against the calendar; %d accepts one or two digits or strptime's
space-padded single-digit alternative " [1-9]".  The result is encoded as
y*10000 + m*100 + d so that the numeric order is the chronological order.
Failure (NaT) is none. -/
def parseExpiry (s : String) : Option ℕ :=
  match s.toList with
  | ' ' :: d :: r =>
    if isDigitChar d ∧ d ≠ '0' then expiryCore [d] r else Option.none
  | cs =>
    let dsp := cs.span isDigitChar
    if dsp.1.length = 0 ∨ 2 < dsp.1.length then Option.none
    else expiryCore dsp.1 dsp.2
where
  /-- month, two-digit year and calendar validation after the day digits. -/
  expiryCore (ds rest : List Char) : Option ℕ :=
    let msp := rest.span isAlphaChar
    match monthNum (String.mk msp.1) with
    | some m =>
      let ysp := msp.2.span isDigitChar
      if ysp.1.length = 2 ∧ ysp.2 = [] then
        let d := digitsToNat ds
        let yy := digitsToNat ysp.1
        let y := if yy ≤ 68 then 2000 + yy else 1900 + yy
        if 1 ≤ d ∧ d ≤ daysInMonth y m then some (y * 10000 + m * 100 + d) else Option.none
      else Option.none
    | Option.none => Option.none

/-! ## Timestamps: pd.to_datetime(..., unit="ms").  quote_date is modelled by the
millisecond count itself (the utc=True / tz_localize(None) step of the study
variant is the identity on this encoding, and numeric order is time order). -/

/-- pd.to_datetime(x, unit="ms", utc=True) on one cell, errors raised (study). -/
def toDatetimeMsStrict : PyVal → Except PyErr PyFloat
  | .none => .ok .nan
  | .num .nan => .ok .nan
  | .num (.finite q) => .ok (.finite q)
  | .num .inf => .error .valueError
  | .num .ninf => .error .valueError
  | .int n => .ok (.finite (PRat.ofInt n))
  | .bool b => .ok (.finite (PRat.ofInt (if b then 1 else 0)))
  | .str s => (match parseFloatStr s with
      | .ok (.finite q) => .ok (.finite q)
      | _ => .error .valueError)
  | .dt n => .ok (.finite (PRat.ofInt (n : ℤ)))
  | _ => .error .valueError

/-- pd.to_datetime(x, unit="ms", errors="coerce") on one cell (monolith). -/
def toDatetimeMsCoerce (v : PyVal) : PyFloat :=
  match toDatetimeMsStrict v with
  | .ok f => f
  | .error _ => .nan

/-! ## InstrumentIdentifierParser, study variant: the anchored INSTRUMENT_RE
regular expression of samples/deribit_iron_condor_study.py lines 18-20,
matching <UNDERLYING>-<DDMonYY>-<STRIKE>-<C|P> with named groups.
The Python pattern is deterministic on every input (letters and digits are
disjoint), so it is modelled by a direct scanner returning the four groups. -/

/-- uppercase-letter test ([A-Z]). -/
def isUpperAZ (c : Char) : Bool := decide ('A' ≤ c) && decide (c ≤ 'Z')

/-- the full INSTRUMENT_RE match: underlying [A-Z]+, expiration
\d{1,2}[A-Z]{3}\d{2}, strike [0-9]+(\.[0-9]+)?, option [CP], dash-separated
and anchored.  Returns the four captured groups on a match. -/
def studyParseInstr (s : String) : Option (String × String × String × Char) :=
  let cs := s.toList
  let usp := cs.span isUpperAZ
  if usp.1.isEmpty then Option.none
  else
    match usp.2 with
    | '-' :: r2 =>
      let dsp := r2.span isDigitChar
      if dsp.1.length = 0 ∨ 2 < dsp.1.length then Option.none
      else
        let msp := dsp.2.span isUpperAZ
        if msp.1.length ≠ 3 then Option.none
        else
          let ysp := msp.2.span isDigitChar
          if ysp.1.length ≠ 2 then Option.none
          else
            match ysp.2 with
            | '-' :: r3 =>
              let ssp := r3.span isDigitChar
              if ssp.1.isEmpty then Option.none
              else
                let expText := String.mk (dsp.1 ++ msp.1 ++ ysp.1)
                match ssp.2 with
                | '-' :: [c] =>
                  if c == 'C' || c == 'P' then
                    some (String.mk usp.1, expText, String.mk ssp.1, c)
                  else Option.none
                | '.' :: r4 =>
                  let fsp := r4.span isDigitChar
                  if fsp.1.isEmpty then Option.none
                  else
                    match fsp.2 with
                    | '-' :: [c] =>
                      if c == 'C' || c == 'P' then
                        some (String.mk usp.1, expText,
                              String.mk (ssp.1 ++ '.' :: fsp.1), c)
                      else Option.none
                    | _ => Option.none
                | _ => Option.none
            | _ => Option.none
    | _ => Option.none

/-! ## The four leaf helpers, embedded line by line from the source -/

/-- samples/deribit_iron_condor_study.py lines 23-45 (_parse_l1_from_book):
extract the first-level price from a Deribit bids/asks JSON-like value. -/
def parse_l1_from_book (value : PyVal) : Except PyErr (Option PyFloat) :=
  -- if value is None or (isinstance(value, float) and np.isnan(value)): return None
  if value = .none ∨ value = .num .nan then .ok Option.none
  else
    match value with
    | .list xs => parseCont (.list xs)
    | v =>
      -- raw = str(value).strip()
      let raw := pyStrip (pyStr v)
      if raw = "" ∨ raw = "[]" ∨ pyLower raw = "nan" then .ok Option.none
      else
        match literalEval raw with
        | .error _ => .ok Option.none   -- except (ValueError, SyntaxError): return None
        | .ok book => parseCont book
where
  /-- lines 39-45: `if not book`, then first = book[0] and float(first[0]);
  the float() call is outside any try and propagates its exception. -/
  parseCont (book : PyVal) : Except PyErr (Option PyFloat) :=
    if !book.truthy then .ok Option.none
    else do
      let first ← pySubscr book 0
      match first with
      | .list ys => headFloat ys
      | .tuple ys => headFloat ys
      | _ => .ok Option.none
  headFloat : List PyVal → Except PyErr (Option PyFloat)
  | y :: _ => do
      let f ← pyFloatOf y
      .ok (some f)
  | [] => .ok Option.none

/-- samples/deribit_ironcondor_monolith.py lines 24-34 (_safe_float). -/
def safe_float (value : PyVal) : Except PyErr PyFloat := do
  let isna ← pdIsnaTruth value
  if isna then return .nan
  else
    match value with
    | .str s =>
      let raw := pyLower (pyStrip s)
      if raw == "" || raw == "nan" || raw == "none" || raw == "null" then return .nan
      else (match pyFloatOf (.str s) with   -- try: float(value) except: nan
        | .ok f => return f
        | .error _ => return .nan)
    | v => (match pyFloatOf v with
        | .ok f => return f
        | .error _ => return .nan)

/-- samples/deribit_ironcondor_monolith.py lines 37-46 (_best_price_from_ladder). -/
def best_price_from_ladder (raw_ladder : PyVal) (index : ℕ) : Except PyErr PyFloat := do
  -- if pd.isna(raw_ladder) or raw_ladder in ("[]", ""): return np.nan
  let isna ← pdIsnaTruth raw_ladder
  if isna || PyVal.pyEq raw_ladder (.str "[]") || PyVal.pyEq raw_ladder (.str "") then
    return .nan
  else
    match ladderTry raw_ladder index with
    | .ok f => return f
    | .error _ => return .nan            -- except Exception: return np.nan
where
  /-- the body of the try block (lines 41-43); the trailing `return np.nan` of
  line 46 is reached when the parsed value is not a non-empty list. -/
  ladderTry (raw_ladder : PyVal) (index : ℕ) : Except PyErr PyFloat := do
    let ladder ← (match raw_ladder with
      | .str s => (match literalEval s with
          | .ok v => Except.ok v
          | .error _ => Except.error PyErr.valueError)
      | v => Except.ok v)
    match ladder with
    | .list xs =>
      if !xs.isEmpty then do
        let first ← pySubscr (.list xs) 0
        let x ← pySubscr first index
        safe_float x
      else return .nan
    | _ => return .nan

/-- samples/deribit_ironcondor_monolith.py lines 49-60 (_split_instrument);
the (None, None, None, None) result for a code without exactly four
dash-separated fields is modelled as Option.none. -/
def split_instrument (instrument_name : String) : Option (String × Option ℕ × PyFloat × String) :=
  match pySplitDash instrument_name with
  | [symbol, expiry_raw, strike_raw, side_raw] =>
    let expiration := parseExpiry expiry_raw
    let strike := match safe_float (.str strike_raw) with
      | .ok f => f
      | .error _ => .nan   -- unreachable: _safe_float cannot raise on a str
    let option_type := if pyUpper side_raw == "C" then "call" else "put"
    some (symbol, expiration, strike, option_type)
  | _ => Option.none

/-! ## DataFrames -/

/-- a pandas DataFrame: column names plus rows of cells (one cell per column). -/
structure Table where
  cols : List String
  rows : List (List PyVal)

/-- the cell of row r in column c (NaN when the column or the cell is missing,
which well-formed tables do not exercise). -/
def cellV (cols : List String) (r : List PyVal) (c : String) : PyVal :=
  match cols.indexOf? c with
  | some i => r.getD i (.num .nan)
  | Option.none => .num .nan

/-- df.get(c): the cell when the column exists, None otherwise (pd.to_numeric of
the scalar default then yields NaN). -/
def cellOpt (cols : List String) (r : List PyVal) (c : String) : Option PyVal :=
  if c ∈ cols then some (cellV cols r c) else Option.none

/-- df[c] / df.loc[mask, c]: a missing column label raises KeyError. -/
def requireCol (t : Table) (c : String) : Except PyErr Unit :=
  if c ∈ t.cols then .ok () else .error (.keyError c)

/-- effectful map over a list, stopping at the first raised exception (the
row-wise image of a vectorized pandas statement). -/
def emap {α β : Type} (f : α → Except PyErr β) : List α → Except PyErr (List β)
  | [] => .ok []
  | a :: l => do
    let b ← f a
    let bs ← emap f l
    .ok (b :: bs)

/-! ## Sort keys: sort_values(["quote_date", "expiration", "strike", "option_type"]) -/

/-- string order on object columns (lexicographic on code points). -/
def charListLe : List Char → List Char → Bool
  | [], _ => true
  | _ :: _, [] => false
  | c :: cs, d :: ds =>
    if c.toNat < d.toNat then true
    else if d.toNat < c.toNat then false
    else charListLe cs ds

def strLe (a b : String) : Bool := charListLe a.toList b.toList

/-- float sort rank: -inf < finite < inf < NaN (na_position="last"). -/
def pfRank : PyFloat → ℕ
  | .ninf => 0
  | .finite _ => 1
  | .inf => 2
  | .nan => 3

/-- float key order used by sort_values. -/
def pfLe (a b : PyFloat) : Bool :=
  match a, b with
  | .finite p, .finite q => p.qle q
  | _, _ => decide (pfRank a ≤ pfRank b)

/-- lexicographic chaining of a total Bool preorder: strictly-less wins,
equivalent keys defer to the rest of the key. -/
def lexB {α : Type} (le : α → α → Bool) (a b : α) (rest : Bool) : Bool :=
  if le a b then (if le b a then rest else true) else false

/-! ## Study variant: _to_optopsy_frame (samples/deribit_iron_condor_study.py) -/

/-- one row of the study variant's output frame (the canonical column set of
lines 83-97, after the rename of line 97). -/
structure SRow where
  underlying_symbol : String
  underlying_price : PyFloat
  option_type : String
  expiration : ℕ
  quote_date : PyFloat
  strike : PyFloat
  bid : PyFloat
  ask : PyFloat
  delta : PyFloat
  volume : PyFloat
  open_interest : PyFloat
  deriving DecidableEq

/-- the four-part sort key order on output rows. -/
def srowKeyLe (a b : SRow) : Bool :=
  lexB pfLe a.quote_date b.quote_date
    (lexB (fun x y => decide (x ≤ y)) a.expiration b.expiration
      (lexB pfLe a.strike b.strike
        (strLe a.option_type b.option_type)))

/-- the sort relation on labelled rows. -/
def srowPairLe (p q : ℕ × SRow) : Prop := srowKeyLe p.2 q.2 = true

instance : DecidableRel srowPairLe := fun p q =>
  inferInstanceAs (Decidable (srowKeyLe p.2 q.2 = true))

/-- rows that survive the instrument extract + dropna of lines 51-55, with the
four captured groups. -/
structure S1 where
  idx : ℕ
  raw : List PyVal
  underlying : String
  expText : String
  strikeText : String
  opt : Char

/-- after line 57 (quote_date). -/
structure S2 extends S1 where
  quote_date : PyFloat

/-- after lines 58-59 (expiration parse + dropna). -/
structure S3 extends S2 where
  expiration : ℕ

/-- after lines 64-70 (bid resolved). -/
structure S4 extends S3 where
  bid : PyFloat

/-- after lines 71-73 (ask resolved). -/
structure S5 extends S4 where
  ask : PyFloat

/-- lines 64-73 for one row and one side: pd.to_numeric coercion of the
top-of-book cell, then the _parse_l1_from_book ladder fallback when the result
is missing or non-positive; a None from the fallback enters the float column
as NaN. -/
def studyResolvePrice (explicitCell ladderCell : PyVal) : Except PyErr PyFloat :=
  let b := toNumeric explicitCell
  if b.isna || b.le0 then
    match parse_l1_from_book ladderCell with
    | .error e => .error e
    | .ok Option.none => .ok .nan
    | .ok (some f) => .ok f
  else .ok b

/-- lines 75-76 for one row: underlying_price, filled from index_price where
missing. -/
def studyResolveUnderlying (u i : PyFloat) : PyFloat :=
  if u.isna then i else u

/-- generated column names that pd.concat (line 52) would duplicate if already
present in the raw frame; the dropna of lines 55/59 then raises on the
duplicated label. -/
def studyGenCols : List String := ["underlying", "expiration", "strike", "option"]

/-- lines 51-55 for the whole frame: the INSTRUMENT_RE extract on the
instrument_name column plus the dropna on the four captured groups
(non-matching and non-string instrument names give NaN groups). -/
def studyStage1 (t : Table) : List S1 :=
  (t.rows.enum).filterMap (fun p =>
    match cellV t.cols p.2 "instrument_name" with
    | .str s => (studyParseInstr s).map (fun g =>
        ⟨p.1, p.2, g.1, g.2.1, g.2.2.1, g.2.2.2⟩)
    | _ => Option.none)

/-- line 57 for one row: quote_date from epoch milliseconds (raises on bad
cells). -/
def studyStage2 (t : Table) (b : S1) : Except PyErr S2 := do
  let qd ← toDatetimeMsStrict (cellV t.cols b.raw "timestamp")
  Except.ok ⟨b, qd⟩

/-- lines 58-59 for one row: expiration parse with errors="coerce", then
dropna. -/
def studyStage3 (b : S2) : Option S3 :=
  (parseExpiry b.expText).map (fun e => ⟨b, e⟩)

/-- lines 64 and 68-70 for one row: the bid with its ladder fallback. -/
def studyStage4 (t : Table) (b : S3) : Except PyErr S4 := do
  let bid ← studyResolvePrice ((cellOpt t.cols b.raw "best_bid_price").getD .none)
    (cellV t.cols b.raw "bids")
  Except.ok ⟨b, bid⟩

/-- lines 65 and 71-73 for one row: the ask with its ladder fallback. -/
def studyStage5 (t : Table) (b : S4) : Except PyErr S5 := do
  let ask ← studyResolvePrice ((cellOpt t.cols b.raw "best_ask_price").getD .none)
    (cellV t.cols b.raw "asks")
  Except.ok ⟨b, ask⟩

/-- lines 75-97 for one row: underlying_price with index fallback, the
enrichment columns, and the projection to the canonical column set (the option
map of line 61 sends C to call and P to put; the regex admits no other side). -/
def studyBuildRow (t : Table) (b : S5) : ℕ × SRow :=
  (b.idx,
   { underlying_symbol := b.underlying
     underlying_price := studyResolveUnderlying
       (toNumeric ((cellOpt t.cols b.raw "underlying_price").getD .none))
       (toNumeric ((cellOpt t.cols b.raw "index_price").getD .none))
     option_type := if b.opt == 'C' then "call" else "put"
     expiration := b.expiration
     quote_date := b.quote_date
     strike := toNumeric (.str b.strikeText)
     bid := b.bid
     ask := b.ask
     delta := toNumeric ((cellOpt t.cols b.raw "greeks.delta").getD .none)
     volume := toNumeric ((cellOpt t.cols b.raw "stats.volume").getD .none)
     open_interest := toNumeric ((cellOpt t.cols b.raw "open_interest").getD .none) })

/-- line 99: dropna on the required output fields. -/
def studyDropnaPred (p : ℕ × SRow) : Bool :=
  !p.2.underlying_price.isna && !p.2.strike.isna && !p.2.bid.isna && !p.2.ask.isna

/-- line 100: the positivity filter. -/
def studyPosPred (p : ℕ × SRow) : Bool := p.2.bid.pos && p.2.ask.pos

/-- _to_optopsy_frame, lines 48-102, before the final index reset: the output
rows still carry their original row labels (the sort of line 102 is modelled
by insertion sort, which is sorted under the same key order). -/
def studySurvivors (t : Table) : Except PyErr (List (ℕ × SRow)) := do
  -- line 51: df["instrument_name"] (KeyError when absent)
  let _ ← requireCol t "instrument_name"
  -- line 52: pd.concat of the extracted groups; duplicated labels poison the
  -- dropna calls below
  if studyGenCols.any (fun c => t.cols.contains c) then
    Except.error PyErr.valueError
  else do
    let s1 := studyStage1 t
    let _ ← requireCol t "timestamp"
    let s2 ← emap (studyStage2 t) s1
    let s3 := s2.filterMap studyStage3
    -- df.loc of line 68 requires the bids column even when no row is masked
    let _ ← requireCol t "bids"
    let s4 ← emap (studyStage4 t) s3
    let _ ← requireCol t "asks"
    let s5 ← emap (studyStage5 t) s4
    let s8 := ((s5.map (studyBuildRow t)).filter studyDropnaPred).filter studyPosPred
    -- line 102: sort_values by the four-part key
    Except.ok (List.insertionSort srowPairLe s8)

/-- _to_optopsy_frame: the sorted survivors with row identity reset
(reset_index(drop=True) of line 102). -/
def to_optopsy_frame (t : Table) : Except PyErr (List (ℕ × SRow)) :=
  (studySurvivors t).map (fun l => (l.map Prod.snd).enum)

/-- run_study, lines 105-110: the normalized frame is rejected with an explicit
ValueError when empty, before any backtest call. -/
def run_study (t : Table) : Except PyErr (List (ℕ × SRow)) := do
  let data ← to_optopsy_frame t
  if data.isEmpty then Except.error PyErr.valueError
  else Except.ok data

/-! ## Persistence variant: normalize_deribit_csv
(samples/deribit_ironcondor_monolith.py lines 63-132) -/

/-- one row of the monolith's normalized output (the 25-column projection of
lines 99-127, in order).  Fields that the source coerces are typed PyFloat;
raw passthrough columns stay PyVal. -/
structure MRow where
  timestamp : PyVal
  change_id : PyVal
  underlying_symbol : String
  underlying_price : PyFloat
  index_price : PyFloat
  instrument_name : String
  option_type : String
  expiration : ℕ
  quote_date : PyFloat
  strike : PyFloat
  bid : PyFloat
  ask : PyFloat
  best_bid_price : PyVal
  best_ask_price : PyVal
  best_bid_amount : PyVal
  best_ask_amount : PyVal
  mark_price : PyFloat
  last_price : PyVal
  open_interest : PyFloat
  mark_iv : PyFloat
  bid_iv : PyFloat
  ask_iv : PyFloat
  delta : PyFloat
  volume : PyFloat
  settlement_period : PyVal
  deriving DecidableEq

/-- after lines 66-70: the _split_instrument result (None components for a
non-4-field code are the Option.none case). -/
structure M1 where
  idx : ℕ
  raw : List PyVal
  instrName : String
  parsed : Option (String × Option ℕ × PyFloat × String)

/-- after line 72 (quote_date, errors="coerce"). -/
structure M2 extends M1 where
  quote_date : PyFloat

/-- after line 74 (bid before fallback). -/
structure M3 extends M2 where
  bid0 : PyFloat

/-- after line 75 (ask before fallback). -/
structure M4 extends M3 where
  ask0 : PyFloat

/-- after line 80 (bid with ladder fallback). -/
structure M5 extends M4 where
  bid : PyFloat

/-- after line 81 (ask with ladder fallback). -/
structure M6 extends M5 where
  ask : PyFloat

/-- after lines 83-84 (delta / volume). -/
structure M7 extends M6 where
  delta : PyFloat
  volume : PyFloat

/-- after the numeric_cols loop of lines 86-97; a field stays NaN when its
column is absent, in which case the projection of line 99 raises before the
value could be read. -/
structure M8 extends M7 where
  up : PyFloat
  ip : PyFloat
  mp : PyFloat
  oi : PyFloat
  miv : PyFloat
  biv : PyFloat
  aiv : PyFloat

/-- the numeric_cols list of lines 86-94. -/
def numericCols : List String :=
  ["underlying_price", "index_price", "mark_price", "open_interest",
   "mark_iv", "bid_iv", "ask_iv"]

/-- raw columns that the projection of lines 99-127 reads (in projection
order); a missing one raises KeyError there. -/
def monolithProjCols : List String :=
  ["timestamp", "change_id", "underlying_price", "index_price",
   "instrument_name", "best_bid_price", "best_ask_price", "best_bid_amount",
   "best_ask_amount", "mark_price", "last_price", "open_interest", "mark_iv",
   "bid_iv", "ask_iv", "settlement_period"]

/-- sequential presence check of a column list (first missing label raises). -/
def requireCols (t : Table) (cs : List String) : Except PyErr Unit :=
  match cs.find? (fun c => !(t.cols.contains c)) with
  | some c => .error (.keyError c)
  | Option.none => .ok ()

/-- one pass of the numeric_cols loop body for one column: coerce every cell
of the column when it exists (line 95-97). -/
def coerceNumStage (t : Table) (c : String) (upd : M8 → PyFloat → M8)
    (l : List M8) : Except PyErr (List M8) :=
  if c ∈ t.cols then
    emap (fun b => (safe_float (cellV t.cols b.raw c)).map (upd b)) l
  else .ok l

/-- line 66 for one row: src["instrument_name"].apply(_split_instrument)
(a non-string cell raises AttributeError at .split). -/
def mStage1 (t : Table) (p : ℕ × List PyVal) : Except PyErr M1 :=
  match cellV t.cols p.2 "instrument_name" with
  | .str s => Except.ok ⟨p.1, p.2, s, split_instrument s⟩
  | _ => Except.error PyErr.attributeError

/-- line 72 for one row: quote_date with errors="coerce". -/
def mStage2 (t : Table) (b : M1) : M2 :=
  ⟨b, toDatetimeMsCoerce (cellV t.cols b.raw "timestamp")⟩

/-- line 74 for one row: bid = _safe_float(best_bid_price). -/
def mStage3 (t : Table) (b : M2) : Except PyErr M3 :=
  (safe_float (cellV t.cols b.raw "best_bid_price")).map (fun f => ⟨b, f⟩)

/-- line 75 for one row: ask. -/
def mStage4 (t : Table) (b : M3) : Except PyErr M4 :=
  (safe_float (cellV t.cols b.raw "best_ask_price")).map (fun f => ⟨b, f⟩)

/-- lines 77 and 80 for one row: bid_missing mask, bid ladder fallback. -/
def mStage5 (t : Table) (b : M4) : Except PyErr M5 :=
  if b.bid0.isna || b.bid0.le0 then
    (best_price_from_ladder (cellV t.cols b.raw "bids") 0).map (fun f => ⟨b, f⟩)
  else Except.ok ⟨b, b.bid0⟩

/-- lines 78 and 81 for one row: ask_missing mask, ask ladder fallback. -/
def mStage6 (t : Table) (b : M5) : Except PyErr M6 :=
  if b.ask0.isna || b.ask0.le0 then
    (best_price_from_ladder (cellV t.cols b.raw "asks") 0).map (fun f => ⟨b, f⟩)
  else Except.ok ⟨b, b.ask0⟩

/-- line 83 for one row: delta. -/
def mStage7a (t : Table) (b : M6) : Except PyErr (M6 × PyFloat) :=
  (safe_float (cellV t.cols b.raw "greeks.delta")).map (fun f => (b, f))

/-- line 84 for one row: volume. -/
def mStage7 (t : Table) (p : M6 × PyFloat) : Except PyErr M7 :=
  (safe_float (cellV t.cols p.1.raw "stats.volume")).map (fun f => ⟨p.1, p.2, f⟩)

/-- lines 99-127 and 129, merged, for one row: the projection builds one MRow,
and the dropna on underlying_symbol, expiration, quote_date, strike,
option_type immediately discards every row whose _split_instrument result was
the all-None tuple, whose expiry failed to parse, whose timestamp coerced to
NaT, or whose strike coerced to NaN (those fields have no representation in
MRow, hence one fused filterMap step). -/
def monolithBuildRow (t : Table) (b : M8) : Option (ℕ × MRow) :=
  match b.parsed with
  | some g =>
    match g.2.1 with
    | some e =>
      if !b.quote_date.isna && !(g.2.2.1).isna then
        some (b.idx,
         { timestamp := cellV t.cols b.raw "timestamp"
           change_id := cellV t.cols b.raw "change_id"
           underlying_symbol := g.1
           underlying_price := b.up
           index_price := b.ip
           instrument_name := b.instrName
           option_type := g.2.2.2
           expiration := e
           quote_date := b.quote_date
           strike := g.2.2.1
           bid := b.bid
           ask := b.ask
           best_bid_price := cellV t.cols b.raw "best_bid_price"
           best_ask_price := cellV t.cols b.raw "best_ask_price"
           best_bid_amount := cellV t.cols b.raw "best_bid_amount"
           best_ask_amount := cellV t.cols b.raw "best_ask_amount"
           mark_price := b.mp
           last_price := cellV t.cols b.raw "last_price"
           open_interest := b.oi
           mark_iv := b.miv
           bid_iv := b.biv
           ask_iv := b.aiv
           delta := b.delta
           volume := b.volume
           settlement_period := cellV t.cols b.raw "settlement_period" })
      else Option.none
    | Option.none => Option.none
  | Option.none => Option.none

/-- line 130: the positivity filter. -/
def mPosPred (p : ℕ × MRow) : Bool := p.2.bid.pos && p.2.ask.pos

/-- normalize_deribit_csv, lines 63-132, statement by statement.  The output
keeps the input row order and the original row labels: the function neither
sorts nor resets the index. -/
def normalize_deribit_csv (t : Table) : Except PyErr (List (ℕ × MRow)) := do
  -- line 66
  let _ ← requireCol t "instrument_name"
  let s1 ← emap (mStage1 t) t.rows.enum
  -- line 72
  let _ ← requireCol t "timestamp"
  let s2 := s1.map (mStage2 t)
  -- line 74
  let _ ← requireCol t "best_bid_price"
  let s3 ← emap (mStage3 t) s2
  -- line 75
  let _ ← requireCol t "best_ask_price"
  let s4 ← emap (mStage4 t) s3
  -- lines 77-80 (df.loc requires the bids column even when no row is masked)
  let _ ← requireCol t "bids"
  let s5 ← emap (mStage5 t) s4
  -- lines 78, 81
  let _ ← requireCol t "asks"
  let s6 ← emap (mStage6 t) s5
  -- line 83: src.get("greeks.delta", np.nan).apply(_safe_float)
  -- (a missing column gives the scalar np.nan, whose .apply raises)
  let _ ← (if "greeks.delta" ∈ t.cols then Except.ok ()
           else Except.error PyErr.attributeError)
  let s7a ← emap (mStage7a t) s6
  -- line 84: volume
  let _ ← (if "stats.volume" ∈ t.cols then Except.ok ()
           else Except.error PyErr.attributeError)
  let s7 ← emap (mStage7 t) s7a
  -- lines 86-97: the numeric_cols loop, one column at a time
  let s80 : List M8 := s7.map (fun b => ⟨b, .nan, .nan, .nan, .nan, .nan, .nan, .nan⟩)
  let s81 ← coerceNumStage t "underlying_price" (fun b f => { b with up := f }) s80
  let s82 ← coerceNumStage t "index_price" (fun b f => { b with ip := f }) s81
  let s83 ← coerceNumStage t "mark_price" (fun b f => { b with mp := f }) s82
  let s84 ← coerceNumStage t "open_interest" (fun b f => { b with oi := f }) s83
  let s85 ← coerceNumStage t "mark_iv" (fun b f => { b with miv := f }) s84
  let s86 ← coerceNumStage t "bid_iv" (fun b f => { b with biv := f }) s85
  let s87 ← coerceNumStage t "ask_iv" (fun b f => { b with aiv := f }) s86
  -- lines 99-127: the projection reads these raw columns (KeyError if absent)
  let _ ← requireCols t monolithProjCols
  -- lines 99-129: projection + dropna
  let dropped := s87.filterMap (monolithBuildRow t)
  -- line 130: positivity filter; line 132: return, order and labels untouched
  Except.ok (dropped.filter mPosPred)

/-! ## The study output as a frame, and the aliasing model of _to_optopsy_frame -/

/-- the canonical study output column names (lines 83-97 after the rename). -/
def studyCols : List String :=
  ["underlying_symbol", "underlying_price", "option_type", "expiration",
   "quote_date", "strike", "bid", "ask", "delta", "volume", "open_interest"]

/-- one output row as frame cells (datetimes carry their encoded values). -/
def srowCells (r : SRow) : List PyVal :=
  [.str r.underlying_symbol, .num r.underlying_price, .str r.option_type,
   .dt r.expiration, .num r.quote_date, .num r.strike, .num r.bid, .num r.ask,
   .num r.delta, .num r.volume, .num r.open_interest]

/-- the study output frame as a Table (what a caller holding the result sees,
and what a re-run of the pipeline would receive). -/
def toTableS (out : List (ℕ × SRow)) : Table :=
  { cols := studyCols, rows := out.map (fun p => srowCells p.2) }

def emptyTable : Table := { cols := [], rows := [] }

/-- _to_optopsy_frame with the caller's objects made explicit: the heap holds
DataFrame objects and raw is passed by reference.  Line 49 (df = raw.copy())
allocates a fresh object at the end of the heap; every statement of lines
51-102 assigns into df alone, so the heap effect of the whole body is confined
to the allocated copy (written back as the final projected frame on success,
while an escaping exception leaves it in whatever intermediate state). -/
def to_optopsy_frame_heap (heap : List Table) (rawRef : ℕ) :
    List Table × Except PyErr (List (ℕ × SRow)) :=
  let dfRef := heap.length
  let h1 := heap ++ [heap.getD rawRef emptyTable]
  match to_optopsy_frame (h1.getD dfRef emptyTable) with
  | .error e => (h1, .error e)
  | .ok out => (h1.set dfRef (toTableS out), .ok out)

/-! ## Concrete tables and rows used by the claim witnesses and
counterexamples, and derived helper definitions -/

/-- the per-row composition of lines 74 and 77/80 of the monolith: _safe_float
on the top-of-book cell, then the _best_price_from_ladder fallback when the
result is missing or non-positive. -/
def monolithResolvePrice (explicitCell ladderCell : PyVal) : Except PyErr PyFloat := do
  let b0 ← safe_float explicitCell
  if b0.isna || b0.le0 then best_price_from_ladder ladderCell 0
  else Except.ok b0

def mCols : List String :=
  ["instrument_name", "timestamp", "best_bid_price", "best_ask_price", "bids", "asks",
   "greeks.delta", "stats.volume", "change_id", "underlying_price", "index_price",
   "mark_price", "last_price", "open_interest", "mark_iv", "bid_iv", "ask_iv",
   "settlement_period", "best_bid_amount", "best_ask_amount"]

def mkCells (name : String) (bid ask up ip : PyVal) : List PyVal :=
  [.str name, .int 1754000000000, bid, ask, .str "[]", .str "[]",
   .none, .none, .none, up, ip, .none, .none, .none, .none, .none, .none,
   .none, .none, .none]

def tNoIdx : Table :=
  { cols := mCols
    rows := [mkCells "ETH-13AUG25-3800-C" (.num (.finite (PRat.pr 1205 10)))
      (.num (.finite (PRat.pr 1210 10))) .none (.int 100)] }

def tBadPos : Table :=
  { cols := ["instrument_name", "timestamp", "best_bid_price", "best_ask_price",
             "bids", "asks", "underlying_price"]
    rows := [[.str "BTC-13AUG25-0-C", .int 1754000000000,
              .num (.finite (PRat.pr 1 1)), .num (.finite (PRat.pr 2 1)),
              .str "[]", .str "[]", .num (.finite (PRat.pr (-5) 1))]] }

/-- the single normalized row of tBadPos. -/
def badPosRow : SRow :=
  { underlying_symbol := "BTC"
    underlying_price := .finite (PRat.pr (-5) 1)
    option_type := "call"
    expiration := 20250813
    quote_date := .finite (PRat.pr 1754000000000 1)
    strike := .finite (PRat.pr 0 1)
    bid := .finite (PRat.pr 1 1)
    ask := .finite (PRat.pr 2 1)
    delta := .nan
    volume := .nan
    open_interest := .nan }

def tPerp : Table :=
  { cols := mCols
    rows := [mkCells "BTC-PERPETUAL" (.num (.finite (PRat.pr 1 1)))
      (.num (.finite (PRat.pr 2 1))) .none .none] }

def tOrder : Table :=
  { cols := mCols
    rows := [mkCells "BTC-PERPETUAL" (.num (.finite (PRat.pr 1 1)))
        (.num (.finite (PRat.pr 2 1))) .none .none,
      mkCells "ETH-20AUG25-3800-C" (.num (.finite (PRat.pr 1 1)))
        (.num (.finite (PRat.pr 2 1))) .none .none,
      mkCells "ETH-13AUG25-3800-C" (.num (.finite (PRat.pr 1 1)))
        (.num (.finite (PRat.pr 2 1))) .none .none] }

def tSideQ : Table :=
  { cols := mCols
    rows := [mkCells "ETH-13AUG25-3800-Q" (.num (.finite (PRat.pr 1 1)))
      (.num (.finite (PRat.pr 2 1))) .none .none] }

/-- the single row the monolith variant produces from tSideQ. -/
def qRow : MRow :=
  { timestamp := .int 1754000000000
    change_id := .none
    underlying_symbol := "ETH"
    underlying_price := .nan
    index_price := .nan
    instrument_name := "ETH-13AUG25-3800-Q"
    option_type := "put"
    expiration := 20250813
    quote_date := .finite (PRat.pr 1754000000000 1)
    strike := .finite (PRat.pr 3800 1)
    bid := .finite (PRat.pr 1 1)
    ask := .finite (PRat.pr 2 1)
    best_bid_price := .num (.finite (PRat.pr 1 1))
    best_ask_price := .num (.finite (PRat.pr 2 1))
    best_bid_amount := .none
    best_ask_amount := .none
    mark_price := .nan
    last_price := .none
    open_interest := .nan
    mark_iv := .nan
    bid_iv := .nan
    ask_iv := .nan
    delta := .nan
    volume := .nan
    settlement_period := .none }

def monolithCols : List String :=
  ["timestamp", "change_id", "underlying_symbol", "underlying_price",
   "index_price", "instrument_name", "option_type", "expiration", "quote_date",
   "strike", "bid", "ask", "best_bid_price", "best_ask_price",
   "best_bid_amount", "best_ask_amount", "mark_price", "last_price",
   "open_interest", "mark_iv", "bid_iv", "ask_iv", "delta", "volume",
   "settlement_period"]

/-- one monolith output row as frame cells, in the projection order. -/
def mrowCells (r : MRow) : List PyVal :=
  [r.timestamp, r.change_id, .str r.underlying_symbol, .num r.underlying_price,
   .num r.index_price, .str r.instrument_name, .str r.option_type,
   .dt r.expiration, .num r.quote_date, .num r.strike, .num r.bid, .num r.ask,
   r.best_bid_price, r.best_ask_price, r.best_bid_amount, r.best_ask_amount,
   .num r.mark_price, r.last_price, .num r.open_interest, .num r.mark_iv,
   .num r.bid_iv, .num r.ask_iv, .num r.delta, .num r.volume,
   r.settlement_period]

/-- the monolith output frame as a Table (what a re-run would receive). -/
def toTableM (out : List (ℕ × MRow)) : Table :=
  { cols := monolithCols, rows := out.map (fun p => mrowCells p.2) }

/-! ## Generic lemmas about the embedding combinators -/

theorem forall2_mem_right {α β : Type} {R : α → β → Prop} :
    ∀ {l : List α} {m : List β}, List.Forall₂ R l m → ∀ {b}, b ∈ m → ∃ a ∈ l, R a b := by
  intro l m h
  induction h with
  | nil => intro b hb; cases hb
  | cons hr _ ih =>
    intro b hb
    rcases List.mem_cons.mp hb with hb | hb
    · exact ⟨_, List.mem_cons_self _ _, hb ▸ hr⟩
    · rcases ih hb with ⟨a, ha, hra⟩
      exact ⟨a, List.mem_cons_of_mem _ ha, hra⟩

theorem forall2_map_eq {α β γ : Type} {R : α → β → Prop} {g : α → γ} {h : β → γ}
    (hp : ∀ a b, R a b → h b = g a) :
    ∀ {l : List α} {m : List β}, List.Forall₂ R l m → m.map h = l.map g := by
  intro l m hf
  induction hf with
  | nil => rfl
  | cons hr _ ih => simpa [hp _ _ hr] using ih

theorem emap_forall2 {α β : Type} {f : α → Except PyErr β} :
    ∀ {l : List α} {out : List β}, emap f l = .ok out →
      List.Forall₂ (fun a b => f a = .ok b) l out := by
  intro l
  induction l with
  | nil =>
    intro out h
    simp only [emap] at h
    cases h
    exact List.Forall₂.nil
  | cons a l ih =>
    intro out h
    simp only [emap] at h
    cases hfa : f a with
    | error e => rw [hfa] at h; exact absurd h (by simp [Bind.bind, Except.bind])
    | ok b =>
      rw [hfa] at h
      cases hrest : emap f l with
      | error e => rw [hrest] at h; exact absurd h (by simp [Bind.bind, Except.bind])
      | ok bs =>
        rw [hrest] at h
        simp only [Bind.bind, Except.bind] at h
        cases h
        exact List.Forall₂.cons hfa (ih hrest)

theorem emap_mem {α β : Type} {f : α → Except PyErr β} {l : List α} {out : List β}
    (h : emap f l = .ok out) {b} (hb : b ∈ out) : ∃ a ∈ l, f a = .ok b :=
  forall2_mem_right (emap_forall2 h) hb

theorem emap_map_eq {α β γ : Type} {f : α → Except PyErr β} {g : α → γ} {h : β → γ}
    (hp : ∀ a b, f a = .ok b → h b = g a) {l : List α} {out : List β}
    (he : emap f l = .ok out) : out.map h = l.map g :=
  forall2_map_eq hp (emap_forall2 he)

theorem map_filterMap_sublist {α β γ : Type} {f : α → Option β} {g : α → γ} {h : β → γ}
    (hp : ∀ a b, f a = some b → h b = g a) :
    ∀ (l : List α), ((l.filterMap f).map h).Sublist (l.map g) := by
  intro l
  induction l with
  | nil => simp
  | cons a l ih =>
    cases hfa : f a with
    | none =>
      rw [List.filterMap_cons_none hfa, List.map_cons]
      exact ih.cons _
    | some b =>
      rw [List.filterMap_cons_some hfa, List.map_cons, List.map_cons, hp a b hfa]
      exact ih.cons₂ _

/-! ## The sort key order is total and transitive -/

theorem qle_total (a b : PRat) : a.qle b = true ∨ b.qle a = true := by
  simp only [PRat.qle, decide_eq_true_eq]
  exact Int.le_total _ _

theorem qle_trans {a b c : PRat} (h1 : a.qle b = true) (h2 : b.qle c = true) :
    a.qle c = true := by
  simp only [PRat.qle, decide_eq_true_eq] at h1 h2 ⊢
  have ha : (0 : ℤ) < (a.den : ℤ) := Int.natCast_pos.mpr a.den_pos
  have hb : (0 : ℤ) < (b.den : ℤ) := Int.natCast_pos.mpr b.den_pos
  have hc : (0 : ℤ) < (c.den : ℤ) := Int.natCast_pos.mpr c.den_pos
  nlinarith [mul_le_mul_of_nonneg_right h1 hc.le, mul_le_mul_of_nonneg_right h2 ha.le]

theorem pfLe_total (a b : PyFloat) : pfLe a b = true ∨ pfLe b a = true := by
  cases a <;> cases b <;> simp only [pfLe, pfRank, decide_eq_true_eq] <;>
    first
      | exact qle_total ..
      | omega

theorem pfLe_trans {a b c : PyFloat} (h1 : pfLe a b = true) (h2 : pfLe b c = true) :
    pfLe a c = true := by
  cases a <;> cases b <;> cases c <;>
    simp_all only [pfLe, pfRank, decide_eq_true_eq] <;>
    first
      | rfl
      | omega
      | exact qle_trans h1 h2

theorem charListLe_total : ∀ (a b : List Char), charListLe a b = true ∨ charListLe b a = true := by
  intro a
  induction a with
  | nil => intro b; left; rfl
  | cons c cs ih =>
    intro b
    cases b with
    | nil => right; rfl
    | cons d ds =>
      simp only [charListLe]
      by_cases h1 : c.toNat < d.toNat
      · left; simp [h1]
      · by_cases h2 : d.toNat < c.toNat
        · right; simp [h1, h2]
        · rcases ih ds with h | h
          · left; simp [h1, h2, h]
          · right; simp [h1, h2, h]

theorem charListLe_trans : ∀ {a b c : List Char}, charListLe a b = true →
    charListLe b c = true → charListLe a c = true := by
  intro a
  induction a with
  | nil => intro b c _ _; rfl
  | cons x xs ih =>
    intro b c h1 h2
    cases b with
    | nil => exact absurd h1 (by simp [charListLe])
    | cons y ys =>
      cases c with
      | nil => exact absurd h2 (by simp [charListLe])
      | cons z zs =>
        simp only [charListLe] at h1 h2 ⊢
        have hxyle : x.toNat ≤ y.toNat := by
          by_cases h : x.toNat < y.toNat
          · omega
          · by_cases hb : y.toNat < x.toNat
            · rw [if_neg h, if_pos hb] at h1; simp at h1
            · omega
        have hyzle : y.toNat ≤ z.toNat := by
          by_cases h : y.toNat < z.toNat
          · omega
          · by_cases hb : z.toNat < y.toNat
            · rw [if_neg h, if_pos hb] at h2; simp at h2
            · omega
        by_cases hxz : x.toNat < z.toNat
        · simp [hxz]
        · have hxy : x.toNat = y.toNat := by omega
          have hyz : y.toNat = z.toNat := by omega
          rw [if_neg (by omega), if_neg (by omega)] at h1
          rw [if_neg (by omega), if_neg (by omega)] at h2
          rw [if_neg hxz, if_neg (by omega)]
          exact ih h1 h2

theorem strLe_total (a b : String) : strLe a b = true ∨ strLe b a = true :=
  charListLe_total a.toList b.toList

theorem strLe_trans {a b c : String} (h1 : strLe a b = true) (h2 : strLe b c = true) :
    strLe a c = true :=
  charListLe_trans h1 h2

theorem lexB_total {α : Type} {le : α → α → Bool}
    (htot : ∀ x y, le x y = true ∨ le y x = true) (a b : α) {r1 r2 : Bool}
    (hr : r1 = true ∨ r2 = true) :
    lexB le a b r1 = true ∨ lexB le b a r2 = true := by
  cases hab : le a b <;> cases hba : le b a <;> simp [lexB, hab, hba]
  · rcases htot a b with h | h
    · exact absurd h (by simp [hab])
    · exact absurd h (by simp [hba])
  · exact hr

theorem lexB_trans {α : Type} (le : α → α → Bool)
    (htr : ∀ x y z, le x y = true → le y z = true → le x z = true)
    {a b c : α} {r1 r2 r3 : Bool}
    (hr : r1 = true → r2 = true → r3 = true)
    (h1 : lexB le a b r1 = true) (h2 : lexB le b c r2 = true) :
    lexB le a c r3 = true := by
  unfold lexB at h1 h2 ⊢
  cases hab : le a b
  · rw [hab] at h1; exact absurd h1 (by simp)
  · rw [hab] at h1
    cases hbc : le b c
    · rw [hbc] at h2; exact absurd h2 (by simp)
    · rw [hbc] at h2
      have hac : le a c = true := htr _ _ _ hab hbc
      rw [hac]
      cases hca : le c a
      · simp
      · -- both chains are equivalences
        have hcb : le c b = true := htr _ _ _ hca hab
        have hba : le b a = true := htr _ _ _ hbc hca
        rw [hba] at h1
        rw [hcb] at h2
        simp only [if_true]
        exact hr h1 h2

theorem srowKeyLe_total (a b : SRow) : srowKeyLe a b = true ∨ srowKeyLe b a = true := by
  unfold srowKeyLe
  refine lexB_total pfLe_total _ _ ?_
  refine lexB_total (fun x y => by rcases Nat.le_total x y with h | h <;> simp [h]) _ _ ?_
  refine lexB_total pfLe_total _ _ ?_
  exact strLe_total _ _

theorem srowKeyLe_trans {a b c : SRow} (h1 : srowKeyLe a b = true)
    (h2 : srowKeyLe b c = true) : srowKeyLe a c = true := by
  unfold srowKeyLe at h1 h2 ⊢
  refine lexB_trans pfLe (fun _ _ _ hx hy => pfLe_trans hx hy) ?_ h1 h2
  intro g1 g2
  refine lexB_trans (fun x y => decide (x ≤ y)) (fun x y z hx hy => by simp only [decide_eq_true_eq] at *; omega) ?_ g1 g2
  intro k1 k2
  refine lexB_trans pfLe (fun _ _ _ hx hy => pfLe_trans hx hy) ?_ k1 k2
  intro m1 m2
  exact strLe_trans m1 m2

instance : IsTotal (ℕ × SRow) srowPairLe :=
  ⟨fun a b => srowKeyLe_total a.2 b.2⟩

instance : IsTrans (ℕ × SRow) srowPairLe :=
  ⟨fun _ _ _ h1 h2 => srowKeyLe_trans h1 h2⟩

/-! ## Inversion lemmas for the two pipelines -/

theorem bind_ok {α β : Type} {m : Except PyErr α} {k : α → Except PyErr β} {r : β}
    (h : (m >>= k) = .ok r) : ∃ x, m = .ok x ∧ k x = .ok r := by
  cases m with
  | error e => exact absurd h (by simp [Bind.bind, Except.bind])
  | ok x => exact ⟨x, rfl, by simpa [Bind.bind, Except.bind] using h⟩

theorem studySurvivors_ok_inv {t : Table} {l : List (ℕ × SRow)}
    (h : studySurvivors t = .ok l) :
    ∃ (s2 : List S2) (s4 : List S4) (s5 : List S5),
      emap (studyStage2 t) (studyStage1 t) = .ok s2 ∧
      emap (studyStage4 t) (s2.filterMap studyStage3) = .ok s4 ∧
      emap (studyStage5 t) s4 = .ok s5 ∧
      l = List.insertionSort srowPairLe
        (((s5.map (studyBuildRow t)).filter studyDropnaPred).filter studyPosPred) := by
  unfold studySurvivors at h
  obtain ⟨u1, _, h⟩ := bind_ok h
  by_cases hg : studyGenCols.any (fun c => t.cols.contains c)
  · rw [if_pos hg] at h; exact absurd h (by simp)
  · rw [if_neg hg] at h
    obtain ⟨u2, _, h⟩ := bind_ok h
    obtain ⟨s2, hs2, h⟩ := bind_ok h
    obtain ⟨u3, _, h⟩ := bind_ok h
    obtain ⟨s4, hs4, h⟩ := bind_ok h
    obtain ⟨u4, _, h⟩ := bind_ok h
    obtain ⟨s5, hs5, h⟩ := bind_ok h
    cases h
    exact ⟨s2, s4, s5, hs2, hs4, hs5, rfl⟩

theorem normalize_ok_inv {t : Table} {out : List (ℕ × MRow)}
    (h : normalize_deribit_csv t = .ok out) :
    ∃ (s1 : List M1) (s3 : List M3) (s4 : List M4) (s5 : List M5) (s6 : List M6)
      (s7a : List (M6 × PyFloat)) (s7 : List M7) (s81 s82 s83 s84 s85 s86 s87 : List M8),
      emap (mStage1 t) t.rows.enum = .ok s1 ∧
      emap (mStage3 t) (s1.map (mStage2 t)) = .ok s3 ∧
      emap (mStage4 t) s3 = .ok s4 ∧
      emap (mStage5 t) s4 = .ok s5 ∧
      emap (mStage6 t) s5 = .ok s6 ∧
      emap (mStage7a t) s6 = .ok s7a ∧
      emap (mStage7 t) s7a = .ok s7 ∧
      coerceNumStage t "underlying_price" (fun b f => { b with up := f })
        (s7.map (fun b => ⟨b, .nan, .nan, .nan, .nan, .nan, .nan, .nan⟩)) = .ok s81 ∧
      coerceNumStage t "index_price" (fun b f => { b with ip := f }) s81 = .ok s82 ∧
      coerceNumStage t "mark_price" (fun b f => { b with mp := f }) s82 = .ok s83 ∧
      coerceNumStage t "open_interest" (fun b f => { b with oi := f }) s83 = .ok s84 ∧
      coerceNumStage t "mark_iv" (fun b f => { b with miv := f }) s84 = .ok s85 ∧
      coerceNumStage t "bid_iv" (fun b f => { b with biv := f }) s85 = .ok s86 ∧
      coerceNumStage t "ask_iv" (fun b f => { b with aiv := f }) s86 = .ok s87 ∧
      out = (s87.filterMap (monolithBuildRow t)).filter mPosPred := by
  unfold normalize_deribit_csv at h
  obtain ⟨u1, _, h⟩ := bind_ok h
  obtain ⟨s1, hs1, h⟩ := bind_ok h
  obtain ⟨u2, _, h⟩ := bind_ok h
  obtain ⟨u2b, _, h⟩ := bind_ok h
  obtain ⟨s3, hs3, h⟩ := bind_ok h
  obtain ⟨u3, _, h⟩ := bind_ok h
  obtain ⟨s4, hs4, h⟩ := bind_ok h
  obtain ⟨u4, _, h⟩ := bind_ok h
  obtain ⟨s5, hs5, h⟩ := bind_ok h
  obtain ⟨u5, _, h⟩ := bind_ok h
  obtain ⟨s6, hs6, h⟩ := bind_ok h
  obtain ⟨u6, _, h⟩ := bind_ok h
  obtain ⟨s7a, hs7a, h⟩ := bind_ok h
  obtain ⟨u7, _, h⟩ := bind_ok h
  obtain ⟨s7, hs7, h⟩ := bind_ok h
  obtain ⟨s81, h81, h⟩ := bind_ok h
  obtain ⟨s82, h82, h⟩ := bind_ok h
  obtain ⟨s83, h83, h⟩ := bind_ok h
  obtain ⟨s84, h84, h⟩ := bind_ok h
  obtain ⟨s85, h85, h⟩ := bind_ok h
  obtain ⟨s86, h86, h⟩ := bind_ok h
  obtain ⟨s87, h87, h⟩ := bind_ok h
  obtain ⟨u9, _, h⟩ := bind_ok h
  cases h
  exact ⟨s1, s3, s4, s5, s6, s7a, s7, s81, s82, s83, s84, s85, s86, s87,
    hs1, hs3, hs4, hs5, hs6, hs7a, hs7, h81, h82, h83, h84, h85, h86, h87, rfl⟩

theorem safe_float_int (n : ℤ) : safe_float (.int n) = .ok (.finite (PRat.ofInt n)) := rfl

theorem isPos_not_isNonPos {q : PRat} (h : q.isPos = true) : q.isNonPos = false := by
  simp only [PRat.isPos, decide_eq_true_eq] at h
  simp only [PRat.isNonPos, decide_eq_false_iff_not]
  omega

/-- C4: the resolved bid (respectively ask) is the explicit top-of-book value
whenever it coerces to a strictly positive number; otherwise it is the first
price of the bids/asks ladder when that parses, and the missing marker when
the fallback yields nothing — in both variants.  The last conjunct ties the
monolith resolver to the staged pipeline of normalize_deribit_csv; the study
pipeline calls studyResolvePrice directly in studyStage4/studyStage5. -/
theorem claim_C4_price_resolution :
    (∀ (e l : PyVal) (q : PRat), toNumeric e = .finite q → q.isPos = true →
        studyResolvePrice e l = .ok (.finite q)) ∧
    (∀ e l : PyVal, ((toNumeric e).isna || (toNumeric e).le0) = true →
        parse_l1_from_book l = .ok Option.none → studyResolvePrice e l = .ok .nan) ∧
    (∀ (e l : PyVal) (f : PyFloat), ((toNumeric e).isna || (toNumeric e).le0) = true →
        parse_l1_from_book l = .ok (some f) → studyResolvePrice e l = .ok f) ∧
    studyResolvePrice (.str "") (.str "[[123.4, 10], [123.0, 5]]") =
      .ok (.finite (PRat.pr 1234 10)) ∧
    (∀ (e l : PyVal) (q : PRat), safe_float e = .ok (.finite q) → q.isPos = true →
        monolithResolvePrice e l = .ok (.finite q)) ∧
    (∀ (e l : PyVal) (b0 : PyFloat), safe_float e = .ok b0 →
        (b0.isna || b0.le0) = true →
        monolithResolvePrice e l = best_price_from_ladder l 0) ∧
    monolithResolvePrice (.str "") (.str "[[123.4, 10], [123.0, 5]]") =
      .ok (.finite (PRat.pr 1234 10)) ∧
    (∀ (t : Table) (b : M2) (m3 : M3) (m4 : M4) (m5 : M5),
        mStage3 t b = .ok m3 → mStage4 t m3 = .ok m4 → mStage5 t m4 = .ok m5 →
        monolithResolvePrice (cellV t.cols b.raw "best_bid_price")
          (cellV t.cols b.raw "bids") = .ok m5.bid) := by
  refine ⟨?_, ?_, ?_, by decide, ?_, ?_, by decide, ?_⟩
  · intro e l q hq hpos
    unfold studyResolvePrice
    rw [hq]
    simp [PyFloat.isna, PyFloat.le0, isPos_not_isNonPos hpos]
  · intro e l hmask hl
    unfold studyResolvePrice
    rw [if_pos hmask, hl]
  · intro e l f hmask hl
    unfold studyResolvePrice
    rw [if_pos hmask, hl]
  · intro e l q hq hpos
    unfold monolithResolvePrice
    rw [hq]
    simp [Bind.bind, Except.bind, PyFloat.isna, PyFloat.le0, isPos_not_isNonPos hpos,
      Pure.pure, Except.pure]
  · intro e l b0 hb0 hmask
    unfold monolithResolvePrice
    rw [hb0]
    simp [Bind.bind, Except.bind, hmask]
  · intro t b m3 m4 m5 h3 h4 h5
    unfold mStage3 at h3
    unfold mStage4 at h4
    unfold mStage5 at h5
    cases hsf : safe_float (cellV t.cols b.raw "best_bid_price") with
    | error e => rw [hsf] at h3; exact absurd h3 (by simp [Except.map])
    | ok f =>
      rw [hsf] at h3
      simp only [Except.map, Except.ok.injEq] at h3
      subst h3
      cases hsa : safe_float (cellV t.cols b.raw "best_ask_price") with
      | error e => rw [hsa] at h4; exact absurd h4 (by simp [Except.map])
      | ok g =>
        rw [hsa] at h4
        simp only [Except.map, Except.ok.injEq] at h4
        subst h4
        unfold monolithResolvePrice
        rw [hsf]
        simp only [Bind.bind, Except.bind]
        by_cases hm : (f.isna || f.le0) = true
        · rw [if_pos hm] at h5 ⊢
          cases hbl : best_price_from_ladder (cellV t.cols b.raw "bids") 0 with
          | error e => rw [hbl] at h5; exact absurd h5 (by simp [Except.map])
          | ok p =>
            rw [hbl] at h5
            simp only [Except.map, Except.ok.injEq] at h5
            subst h5
            rfl
        · rw [if_neg hm] at h5 ⊢
          cases h5
          rfl

/-- witness for C4 at concrete inputs. -/
theorem claim_C4_price_resolution_witness :
    studyResolvePrice (.num (.finite (PRat.pr 5 1))) .none = .ok (.finite (PRat.pr 5 1)) ∧
    studyResolvePrice (.str "") (.str "[]") = .ok .nan ∧
    monolithResolvePrice (.num (.finite (PRat.pr 5 1))) .none = .ok (.finite (PRat.pr 5 1)) :=
  ⟨claim_C4_price_resolution.1 _ _ (PRat.pr 5 1) (by decide) (by decide),
   claim_C4_price_resolution.2.1 _ _ (by decide) (by decide),
   claim_C4_price_resolution.2.2.2.2.1 _ _ (PRat.pr 5 1) (by decide) (by decide)⟩

/-- C10: _to_optopsy_frame transforms only the copy it allocates at line 49
(df = raw.copy()); the caller's object is bit-for-bit what it was, whether the
transform succeeds or raises. -/
theorem claim_C10_caller_frame_unchanged (heap : List Table) (rawRef : ℕ)
    (h : rawRef < heap.length) :
    ((to_optopsy_frame_heap heap rawRef).1).getD rawRef emptyTable =
      heap.getD rawRef emptyTable := by
  unfold to_optopsy_frame_heap
  have hne : heap.length ≠ rawRef := by omega
  cases hr : to_optopsy_frame
      ((heap ++ [heap.getD rawRef emptyTable]).getD heap.length emptyTable) with
  | error e =>
    simp only [hr]
    exact List.getD_append _ _ _ _ h
  | ok out =>
    simp only [hr]
    rw [show ∀ (l : List Table) (x : Table),
        (l.set heap.length x).getD rawRef emptyTable = l.getD rawRef emptyTable from
      fun l x => by simp [List.getD, List.getElem?_set_ne hne]]
    exact List.getD_append _ _ _ _ h

/-- witness for C10 on a concrete heap. -/
theorem claim_C10_caller_frame_unchanged_witness :
    ((to_optopsy_frame_heap [emptyTable] 0).1).getD 0 emptyTable =
      [emptyTable].getD 0 emptyTable :=
  claim_C10_caller_frame_unchanged [emptyTable] 0 (by decide)

/-- C8 (amended): the study variant resolves underlying_price from the raw
underlying_price cell, falling back to index_price exactly when the former is
missing (studyBuildRow routes both cells through studyResolveUnderlying); the
monolith variant performs no such fallback — its output underlying_price is
the coerced raw field alone and can stay missing while index_price is present
(shown on a concrete table in the last conjunct). -/
theorem claim_C8_underlying_price_fallback :
    (∀ u i : PyFloat, u.isna = false → studyResolveUnderlying u i = u) ∧
    (∀ u i : PyFloat, u.isna = true → studyResolveUnderlying u i = i) ∧
    (∀ (t : Table) (b : S5), (studyBuildRow t b).2.underlying_price =
        studyResolveUnderlying
          (toNumeric ((cellOpt t.cols b.raw "underlying_price").getD .none))
          (toNumeric ((cellOpt t.cols b.raw "index_price").getD .none))) ∧
    (normalize_deribit_csv tNoIdx).map (fun l => l.map
        (fun p => (p.2.underlying_price, p.2.index_price))) =
      .ok [(.nan, .finite (PRat.pr 100 1))] := by
  refine ⟨?_, ?_, fun t b => rfl, by decide⟩
  · intro u i h
    unfold studyResolveUnderlying
    rw [h]
    rfl
  · intro u i h
    unfold studyResolveUnderlying
    rw [h]
    rfl

/-- counterexample to C8 as stated: in the monolith variant a row whose raw
underlying_price is absent and whose index_price is 100 is normalized with
underlying_price missing, not 100. -/
theorem claim_C8_counterexample :
    (normalize_deribit_csv tNoIdx).map (fun l => l.map
        (fun p => (p.2.underlying_price, p.2.index_price))) =
      .ok [(.nan, .finite (PRat.pr 100 1))] ∧
    (PyFloat.nan : PyFloat) ≠ .finite (PRat.pr 100 1) := by
  constructor <;> decide

/-- witness for C8 at concrete inputs. -/
theorem claim_C8_underlying_price_fallback_witness :
    studyResolveUnderlying (.finite (PRat.pr 3810 1)) (.finite (PRat.pr 1 1)) =
      .finite (PRat.pr 3810 1) ∧
    studyResolveUnderlying .nan (.finite (PRat.pr 100 1)) = .finite (PRat.pr 100 1) :=
  ⟨claim_C8_underlying_price_fallback.1 _ _ (by decide),
   claim_C8_underlying_price_fallback.2.1 _ _ (by decide)⟩

/-- C1 (amended): every output row of both variants has bid > 0 and ask > 0;
the study variant additionally guarantees strike and underlying_price present
(non-NaN) and the monolith guarantees strike present — but neither variant
enforces strictly positive strike or underlying_price (see counterexample). -/
theorem claim_C1_positivity :
    (∀ (t : Table) (out : List (ℕ × SRow)), to_optopsy_frame t = .ok out →
      ∀ p ∈ out, p.2.bid.pos = true ∧ p.2.ask.pos = true ∧
        p.2.strike.isna = false ∧ p.2.underlying_price.isna = false) ∧
    (∀ (t : Table) (out : List (ℕ × MRow)), normalize_deribit_csv t = .ok out →
      ∀ p ∈ out, p.2.bid.pos = true ∧ p.2.ask.pos = true ∧ p.2.strike.isna = false) := by
  constructor
  · intro t out hok p hp
    unfold to_optopsy_frame at hok
    cases hs : studySurvivors t with
    | error e => rw [hs] at hok; exact absurd hok (by simp [Except.map])
    | ok l =>
      rw [hs] at hok
      simp only [Except.map, Except.ok.injEq] at hok
      subst hok
      have hsnd : p.2 ∈ l.map Prod.snd := by
        have he := List.enum_map_snd (l.map Prod.snd)
        exact he ▸ List.mem_map_of_mem Prod.snd hp
      obtain ⟨q, hq, hqe⟩ := List.mem_map.mp hsnd
      obtain ⟨s2, s4, s5, _, _, _, hl⟩ := studySurvivors_ok_inv hs
      subst hl
      have hq8 :
          q ∈ ((s5.map (studyBuildRow t)).filter studyDropnaPred).filter studyPosPred :=
        (List.perm_insertionSort srowPairLe _).subset hq
      obtain ⟨hq7, hpos⟩ := List.mem_filter.mp hq8
      obtain ⟨_, hdrop⟩ := List.mem_filter.mp hq7
      simp only [studyPosPred, Bool.and_eq_true] at hpos
      simp only [studyDropnaPred, Bool.and_eq_true, Bool.not_eq_true'] at hdrop
      rw [← hqe]
      exact ⟨hpos.1, hpos.2, hdrop.1.1.2, hdrop.1.1.1⟩
  · intro t out hok p hp
    obtain ⟨s1, s3, s4, s5, s6, s7a, s7, s81, s82, s83, s84, s85, s86, s87,
      _, _, _, _, _, _, _, _, _, _, _, _, _, _, hout⟩ := normalize_ok_inv hok
    subst hout
    obtain ⟨hpd, hpos⟩ := List.mem_filter.mp hp
    simp only [mPosPred, Bool.and_eq_true] at hpos
    obtain ⟨b, _, hmb⟩ := List.mem_filterMap.mp hpd
    unfold monolithBuildRow at hmb
    rcases hpb : b.parsed with _ | ⟨sym, exo, strk, otype⟩
    · rw [hpb] at hmb; cases hmb
    · rw [hpb] at hmb
      rcases exo with _ | e
      · dsimp only at hmb; cases hmb
      · dsimp only at hmb
        by_cases hc : (!b.quote_date.isna && !strk.isna) = true
        · rw [if_pos hc] at hmb
          simp only [Bool.and_eq_true, Bool.not_eq_true'] at hc
          cases hmb
          exact ⟨hpos.1, hpos.2, hc.2⟩
        · rw [if_neg hc] at hmb; cases hmb

/-- counterexample to C1 as stated: the strike-0 instrument BTC-13AUG25-0-C
with a negative raw underlying_price is retained by the study pipeline, so an
output row violates both strike > 0 and underlying_price > 0 (and the same
input columns feed the monolith variant, whose filters are no stricter). -/
theorem claim_C1_counterexample :
    to_optopsy_frame tBadPos = .ok [(0, badPosRow)] ∧
    badPosRow.strike.pos = false ∧ badPosRow.underlying_price.pos = false := by
  refine ⟨by decide, by decide, by decide⟩

theorem exceptMap_ok_inv {α β : Type} {x : Except PyErr α} {f : α → β} {b : β}
    (h : x.map f = .ok b) : ∃ a, x = .ok a ∧ b = f a := by
  cases x with
  | error e => exact absurd h (by simp [Except.map])
  | ok a =>
    simp only [Except.map, Except.ok.injEq] at h
    exact ⟨a, rfl, h.symm⟩

theorem mStage1_inv {t : Table} {p : ℕ × List PyVal} {b : M1}
    (h : mStage1 t p = .ok b) :
    ∃ s, cellV t.cols p.2 "instrument_name" = .str s ∧
      b = ⟨p.1, p.2, s, split_instrument s⟩ := by
  unfold mStage1 at h
  cases hc : cellV t.cols p.2 "instrument_name" <;> rw [hc] at h
  case str s => cases h; exact ⟨s, rfl, rfl⟩
  all_goals cases h

theorem mStage1_fst {t : Table} {p : ℕ × List PyVal} {b : M1}
    (h : mStage1 t p = .ok b) : b.idx = p.1 := by
  obtain ⟨s, _, rfl⟩ := mStage1_inv h; rfl

theorem mStage3_toM1 {t : Table} {b : M2} {m : M3} (h : mStage3 t b = .ok m) :
    m.toM1 = b.toM1 := by
  obtain ⟨f, _, rfl⟩ := exceptMap_ok_inv h; rfl

theorem mStage4_toM1 {t : Table} {b : M3} {m : M4} (h : mStage4 t b = .ok m) :
    m.toM1 = b.toM1 := by
  obtain ⟨f, _, rfl⟩ := exceptMap_ok_inv h; rfl

theorem mStage5_toM1 {t : Table} {b : M4} {m : M5} (h : mStage5 t b = .ok m) :
    m.toM1 = b.toM1 := by
  unfold mStage5 at h
  by_cases hm : (b.bid0.isna || b.bid0.le0) = true
  · rw [if_pos hm] at h; obtain ⟨f, _, rfl⟩ := exceptMap_ok_inv h; rfl
  · rw [if_neg hm] at h; cases h; rfl

theorem mStage6_toM1 {t : Table} {b : M5} {m : M6} (h : mStage6 t b = .ok m) :
    m.toM1 = b.toM1 := by
  unfold mStage6 at h
  by_cases hm : (b.ask0.isna || b.ask0.le0) = true
  · rw [if_pos hm] at h; obtain ⟨f, _, rfl⟩ := exceptMap_ok_inv h; rfl
  · rw [if_neg hm] at h; cases h; rfl

theorem mStage7a_toM1 {t : Table} {b : M6} {m : M6 × PyFloat}
    (h : mStage7a t b = .ok m) : m.1.toM1 = b.toM1 := by
  obtain ⟨f, _, rfl⟩ := exceptMap_ok_inv h; rfl

theorem mStage7_toM1 {t : Table} {b : M6 × PyFloat} {m : M7}
    (h : mStage7 t b = .ok m) : m.toM1 = b.1.toM1 := by
  obtain ⟨f, _, rfl⟩ := exceptMap_ok_inv h; rfl

theorem coerceNumStage_map_toM1 {t : Table} {c : String} {upd : M8 → PyFloat → M8}
    {l out : List M8} (h : coerceNumStage t c upd l = .ok out)
    (hupd : ∀ b f, (upd b f).toM7 = b.toM7) :
    out.map (fun b => b.toM1) = l.map (fun b => b.toM1) := by
  unfold coerceNumStage at h
  by_cases hc : c ∈ t.cols
  · rw [if_pos hc] at h
    refine emap_map_eq ?_ h
    intro a b hab
    obtain ⟨f, _, rfl⟩ := exceptMap_ok_inv hab
    show ((upd a f).toM7).toM1 = a.toM1
    rw [hupd]
  · rw [if_neg hc] at h; cases h; rfl

theorem monolithBuildRow_fst {t : Table} {b : M8} {p : ℕ × MRow}
    (h : monolithBuildRow t b = some p) : p.1 = b.idx := by
  unfold monolithBuildRow at h
  rcases hpb : b.parsed with _ | ⟨sym, exo, strk, otype⟩ <;> rw [hpb] at h
  · cases h
  · rcases exo with _ | e
    · dsimp only at h; cases h
    · dsimp only at h
      by_cases hc : (!b.quote_date.isna && !strk.isna) = true
      · rw [if_pos hc] at h; cases h; rfl
      · rw [if_neg hc] at h; cases h

theorem map_toM1_to_idx {l m : List M8}
    (h : l.map (fun b => b.toM1) = m.map (fun b => b.toM1)) :
    l.map (fun b : M8 => b.toM1.idx) = m.map (fun b : M8 => b.toM1.idx) := by
  have h2 := congrArg (List.map (fun x : M1 => x.idx)) h
  simpa [List.map_map, Function.comp] using h2

/-- C2 (corrected): only the study variant sorts by (quote_date, expiration,
strike, option_type) and resets the row labels to 0..n-1; the monolith
variant neither sorts nor resets, it keeps the original (strictly
increasing) input row labels in input order. -/
theorem claim_C2_sort_and_reset :
    (∀ (t : Table) (out : List (ℕ × SRow)), to_optopsy_frame t = .ok out →
      (out.map Prod.snd).Pairwise (fun a b => srowKeyLe a b = true) ∧
      out.map Prod.fst = List.range out.length) ∧
    (∀ (t : Table) (out : List (ℕ × MRow)), normalize_deribit_csv t = .ok out →
      (out.map Prod.fst).Pairwise (· < ·)) := by
  constructor
  · intro t out h
    unfold to_optopsy_frame at h
    obtain ⟨l, hl, rfl⟩ := exceptMap_ok_inv h
    obtain ⟨s2, s4, s5, _, _, _, hsort⟩ := studySurvivors_ok_inv hl
    constructor
    · rw [List.enum_map_snd]
      refine List.pairwise_map.mpr ?_
      rw [hsort]
      exact List.sorted_insertionSort srowPairLe _
    · rw [List.enum_map_fst, List.enum_length]
  · intro t out h
    obtain ⟨s1, s3, s4, s5, s6, s7a, s7, s81, s82, s83, s84, s85, s86, s87,
      hs1, hs3, hs4, hs5, hs6, hs7a, hs7, h81, h82, h83, h84, h85, h86, h87,
      hout⟩ := normalize_ok_inv h
    have e1 : s1.map (fun b : M1 => b.idx) = t.rows.enum.map Prod.fst :=
      emap_map_eq (fun a b hab => mStage1_fst hab) hs1
    have e3 : s3.map (fun b : M3 => b.toM1.idx) =
        (s1.map (mStage2 t)).map (fun b : M2 => b.toM1.idx) :=
      emap_map_eq (fun a b hab => by rw [mStage3_toM1 hab]) hs3
    have e4 : s4.map (fun b : M4 => b.toM1.idx) = s3.map (fun b : M3 => b.toM1.idx) :=
      emap_map_eq (fun a b hab => by rw [mStage4_toM1 hab]) hs4
    have e5 : s5.map (fun b : M5 => b.toM1.idx) = s4.map (fun b : M4 => b.toM1.idx) :=
      emap_map_eq (fun a b hab => by rw [mStage5_toM1 hab]) hs5
    have e6 : s6.map (fun b : M6 => b.toM1.idx) = s5.map (fun b : M5 => b.toM1.idx) :=
      emap_map_eq (fun a b hab => by rw [mStage6_toM1 hab]) hs6
    have e7a : s7a.map (fun p : M6 × PyFloat => p.1.toM1.idx) =
        s6.map (fun b : M6 => b.toM1.idx) :=
      emap_map_eq (fun a b hab => by rw [mStage7a_toM1 hab]) hs7a
    have e7 : s7.map (fun b : M7 => b.toM1.idx) =
        s7a.map (fun p : M6 × PyFloat => p.1.toM1.idx) :=
      emap_map_eq (fun a b hab => by rw [mStage7_toM1 hab]) hs7
    have i8 : s87.map (fun b : M8 => b.toM1.idx) = s7.map (fun b : M7 => b.toM1.idx) := by
      rw [map_toM1_to_idx (coerceNumStage_map_toM1 h87 (fun _ _ => rfl)),
        map_toM1_to_idx (coerceNumStage_map_toM1 h86 (fun _ _ => rfl)),
        map_toM1_to_idx (coerceNumStage_map_toM1 h85 (fun _ _ => rfl)),
        map_toM1_to_idx (coerceNumStage_map_toM1 h84 (fun _ _ => rfl)),
        map_toM1_to_idx (coerceNumStage_map_toM1 h83 (fun _ _ => rfl)),
        map_toM1_to_idx (coerceNumStage_map_toM1 h82 (fun _ _ => rfl)),
        map_toM1_to_idx (coerceNumStage_map_toM1 h81 (fun _ _ => rfl)),
        List.map_map]
      rfl
    have iFinal : s87.map (fun b : M8 => b.toM1.idx) = t.rows.enum.map Prod.fst := by
      rw [i8, e7, e7a, e6, e5, e4, e3, List.map_map]
      exact e1
    have hp87 : (s87.map (fun b : M8 => b.toM1.idx)).Pairwise (· < ·) := by
      rw [iFinal, List.enum_map_fst]
      exact List.pairwise_lt_range _
    have hsub1 : ((s87.filterMap (monolithBuildRow t)).map Prod.fst).Sublist
        (s87.map (fun b : M8 => b.toM1.idx)) :=
      map_filterMap_sublist (fun a b hab => monolithBuildRow_fst hab) s87
    have hsub2 : (out.map Prod.fst).Sublist
        ((s87.filterMap (monolithBuildRow t)).map Prod.fst) := by
      rw [hout]
      exact (List.filter_sublist _).map _
    exact hp87.sublist (hsub2.trans hsub1)

theorem claim_C1_positivity_witness :
    badPosRow.bid.pos = true ∧ badPosRow.ask.pos = true ∧
    badPosRow.strike.isna = false ∧ badPosRow.underlying_price.isna = false :=
  claim_C1_positivity.1 tBadPos [(0, badPosRow)] (by decide) (0, badPosRow)
    (by decide)

theorem claim_C2_sort_and_reset_witness :
    (([(0, badPosRow)].map Prod.snd).Pairwise (fun a b => srowKeyLe a b = true) ∧
      [(0, badPosRow)].map Prod.fst = List.range 1) ∧
    (([] : List (ℕ × MRow)).map Prod.fst).Pairwise (· < ·) :=
  ⟨claim_C2_sort_and_reset.1 tBadPos [(0, badPosRow)] (by decide),
   claim_C2_sort_and_reset.2 tPerp [] (by decide)⟩

/-- counterexample to C2 as stated: the monolith variant neither sorts nor
resets; on tOrder the output keeps the original labels 1 and 2 (the perpetual
row 0 is dropped) and the expirations come out in descending order. -/
theorem claim_C2_counterexample :
    (normalize_deribit_csv tOrder).map (fun l => l.map
        (fun p => (p.1, p.2.expiration))) =
      .ok [(1, 20250820), (2, 20250813)] ∧
    [1, 2] ≠ List.range 2 ∧ ¬ (20250820 ≤ 20250813) := by
  refine ⟨by decide, by decide, by decide⟩

/-- C3 (corrected): only the study variant raises the explicit empty-result
ValueError: run_study rejects an empty normalized frame and never returns an
empty success; the monolith variant silently returns an empty table, shown on
the all-perpetual input tPerp in the last conjunct. -/
theorem claim_C3_empty_result_error :
    (∀ (t : Table), to_optopsy_frame t = .ok [] →
      run_study t = .error .valueError) ∧
    (∀ (t : Table) (out : List (ℕ × SRow)), run_study t = .ok out → out ≠ []) ∧
    normalize_deribit_csv tPerp = .ok [] := by
  refine ⟨?_, ?_, by decide⟩
  · intro t h
    unfold run_study
    rw [h]
    rfl
  · intro t out h
    unfold run_study at h
    obtain ⟨d, hd, h⟩ := bind_ok h
    by_cases he : d.isEmpty
    · rw [if_pos he] at h
      cases h
    · rw [if_neg he] at h
      cases h
      intro hne
      rw [hne] at he
      exact he rfl

theorem claim_C3_empty_result_error_witness :
    run_study tPerp = .error .valueError ∧
    [(0, badPosRow)] ≠ ([] : List (ℕ × SRow)) :=
  ⟨claim_C3_empty_result_error.1 tPerp (by decide),
   claim_C3_empty_result_error.2.1 tBadPos [(0, badPosRow)] (by decide)⟩

/-- counterexample to C3 as stated: a nonempty input holding only the
non-option instrument BTC-PERPETUAL is normalized by the monolith variant to
an empty success, not to an error. -/
theorem claim_C3_counterexample :
    normalize_deribit_csv tPerp = .ok [] ∧ tPerp.rows ≠ [] := by
  refine ⟨by decide, by decide⟩

theorem studyStage2_toS1 {t : Table} {b : S1} {m : S2}
    (h : studyStage2 t b = .ok m) : m.toS1 = b := by
  unfold studyStage2 at h
  obtain ⟨x, _, hk⟩ := bind_ok h
  cases hk
  rfl

theorem studyStage3_toS2 {b : S2} {m : S3} (h : studyStage3 b = some m) :
    m.toS2 = b := by
  unfold studyStage3 at h
  obtain ⟨e, _, hk⟩ := Option.map_eq_some'.mp h
  rw [← hk]

theorem studyStage4_toS3 {t : Table} {b : S3} {m : S4}
    (h : studyStage4 t b = .ok m) : m.toS3 = b := by
  unfold studyStage4 at h
  obtain ⟨x, _, hk⟩ := bind_ok h
  cases hk
  rfl

theorem studyStage5_toS4 {t : Table} {b : S4} {m : S5}
    (h : studyStage5 t b = .ok m) : m.toS4 = b := by
  unfold studyStage5 at h
  obtain ⟨x, _, hk⟩ := bind_ok h
  cases hk
  rfl

theorem studyStage1_mem {t : Table} {b : S1} (hb : b ∈ studyStage1 t) :
    ∃ row ∈ t.rows, ∃ s g, cellV t.cols row "instrument_name" = .str s ∧
      studyParseInstr s = some g ∧
      b = ⟨b.idx, row, g.1, g.2.1, g.2.2.1, g.2.2.2⟩ := by
  unfold studyStage1 at hb
  obtain ⟨pr, hpr, hf⟩ := List.mem_filterMap.mp hb
  have hrow : pr.2 ∈ t.rows := by
    have he := List.enum_map_snd t.rows
    exact he ▸ List.mem_map_of_mem Prod.snd hpr
  cases hc : cellV t.cols pr.2 "instrument_name" <;> rw [hc] at hf
  case str s =>
    obtain ⟨g, hg, hbg⟩ := Option.map_eq_some'.mp hf
    exact ⟨pr.2, hrow, s, g, hc, hg, by rw [← hbg]⟩
  all_goals cases hf

theorem coerceNumStage_mem {t : Table} {c : String} {upd : M8 → PyFloat → M8}
    {l out : List M8} (h : coerceNumStage t c upd l = .ok out)
    (hupd : ∀ b f, (upd b f).toM7 = b.toM7) {b : M8} (hb : b ∈ out) :
    ∃ a ∈ l, b.toM7 = a.toM7 := by
  unfold coerceNumStage at h
  by_cases hc : c ∈ t.cols
  · rw [if_pos hc] at h
    obtain ⟨a, ha, hab⟩ := emap_mem h hb
    obtain ⟨f, _, rfl⟩ := exceptMap_ok_inv hab
    exact ⟨a, ha, hupd a f⟩
  · rw [if_neg hc] at h
    cases h
    exact ⟨b, hb, rfl⟩

theorem monolithBuildRow_inv {t : Table} {b : M8} {p : ℕ × MRow}
    (h : monolithBuildRow t b = some p) :
    ∃ sym e strk otype, b.parsed = some (sym, some e, strk, otype) ∧
      strk.isna = false ∧ p.2.instrument_name = b.instrName ∧
      p.2.underlying_symbol = sym ∧ p.2.expiration = e ∧
      p.2.strike = strk ∧ p.2.option_type = otype := by
  unfold monolithBuildRow at h
  rcases hpb : b.parsed with _ | ⟨sym, exo, strk, otype⟩ <;> rw [hpb] at h
  · cases h
  · rcases exo with _ | e
    · dsimp only at h; cases h
    · dsimp only at h
      by_cases hc : (!b.quote_date.isna && !strk.isna) = true
      · rw [if_pos hc] at h
        simp only [Bool.and_eq_true, Bool.not_eq_true'] at hc
        cases h
        exact ⟨sym, e, strk, otype, rfl, hc.2, rfl, rfl, rfl, rfl, rfl⟩
      · rw [if_neg hc] at h; cases h

/-- C7 (corrected): the study variant is strict — every output row originates
in an input row whose instrument_name matches the anchored pattern, and the
side is translated from the matched C or P letter; the monolith variant keeps
the 4-field, parseable-date, numeric-strike requirements but does not validate
the side letter: any non-C side becomes "put" (see the counterexample), so its
output rows are only guaranteed a successful 4-field split. -/
theorem claim_C7_strict_instrument_parsing :
    (∀ (t : Table) (out : List (ℕ × SRow)), to_optopsy_frame t = .ok out →
      ∀ p ∈ out, ∃ row ∈ t.rows, ∃ s g,
        cellV t.cols row "instrument_name" = .str s ∧
        studyParseInstr s = some g ∧
        p.2.underlying_symbol = g.1 ∧
        p.2.option_type = (if g.2.2.2 == 'C' then "call" else "put")) ∧
    (∀ (t : Table) (out : List (ℕ × MRow)), normalize_deribit_csv t = .ok out →
      ∀ p ∈ out, ∃ g, split_instrument p.2.instrument_name = some g ∧
        g.2.1 = some p.2.expiration ∧ p.2.strike.isna = false ∧
        p.2.option_type = g.2.2.2) := by
  constructor
  · intro t out hok p hp
    unfold to_optopsy_frame at hok
    obtain ⟨l, hl, rfl⟩ := exceptMap_ok_inv hok
    have hsnd : p.2 ∈ l.map Prod.snd := by
      have he := List.enum_map_snd (l.map Prod.snd)
      exact he ▸ List.mem_map_of_mem Prod.snd hp
    obtain ⟨q, hq, hqe⟩ := List.mem_map.mp hsnd
    obtain ⟨s2, s4, s5, hs2, hs4, hs5, hl2⟩ := studySurvivors_ok_inv hl
    subst hl2
    have hq8 := (List.perm_insertionSort srowPairLe _).subset hq
    obtain ⟨hq7, _⟩ := List.mem_filter.mp hq8
    obtain ⟨hq6, _⟩ := List.mem_filter.mp hq7
    obtain ⟨b5, hb5, hqb⟩ := List.mem_map.mp hq6
    obtain ⟨b4, hb4, hok5⟩ := emap_mem hs5 hb5
    obtain ⟨b3, hb3, hok4⟩ := emap_mem hs4 hb4
    obtain ⟨b2, hb2, hok3⟩ := List.mem_filterMap.mp hb3
    obtain ⟨b1, hb1, hok2⟩ := emap_mem hs2 hb2
    obtain ⟨row, hrow, s, g, hc, hg, hb1e⟩ := studyStage1_mem hb1
    have e51 : b5.toS4.toS3.toS2.toS1 = b1 := by
      rw [studyStage5_toS4 hok5, studyStage4_toS3 hok4, studyStage3_toS2 hok3,
        studyStage2_toS1 hok2]
    refine ⟨row, hrow, s, g, hc, hg, ?_, ?_⟩
    · rw [← hqe, ← hqb]
      dsimp only [studyBuildRow]
      rw [e51, hb1e]
    · rw [← hqe, ← hqb]
      dsimp only [studyBuildRow]
      rw [e51, hb1e]
  · intro t out hok p hp
    obtain ⟨s1, s3, s4, s5, s6, s7a, s7, s81, s82, s83, s84, s85, s86, s87,
      hs1, hs3, hs4, hs5, hs6, hs7a, hs7, h81, h82, h83, h84, h85, h86, h87,
      hout⟩ := normalize_ok_inv hok
    subst hout
    obtain ⟨hpd, _⟩ := List.mem_filter.mp hp
    obtain ⟨b, hb87, hmb⟩ := List.mem_filterMap.mp hpd
    obtain ⟨b86, hb86, e87⟩ := coerceNumStage_mem h87 (fun _ _ => rfl) hb87
    obtain ⟨b85, hb85, e86⟩ := coerceNumStage_mem h86 (fun _ _ => rfl) hb86
    obtain ⟨b84, hb84, e85⟩ := coerceNumStage_mem h85 (fun _ _ => rfl) hb85
    obtain ⟨b83, hb83, e84⟩ := coerceNumStage_mem h84 (fun _ _ => rfl) hb84
    obtain ⟨b82, hb82, e83⟩ := coerceNumStage_mem h83 (fun _ _ => rfl) hb83
    obtain ⟨b81, hb81, e82⟩ := coerceNumStage_mem h82 (fun _ _ => rfl) hb82
    obtain ⟨b80, hb80, e81⟩ := coerceNumStage_mem h81 (fun _ _ => rfl) hb81
    obtain ⟨b7, hb7, hb80e⟩ := List.mem_map.mp hb80
    have e7 : b.toM7 = b7 := by
      rw [e87, e86, e85, e84, e83, e82, e81, ← hb80e]
    obtain ⟨p7a, hp7a, hk7⟩ := emap_mem hs7 hb7
    obtain ⟨b6, hb6, hk7a⟩ := emap_mem hs7a hp7a
    obtain ⟨b5m, hb5m, hk6⟩ := emap_mem hs6 hb6
    obtain ⟨b4m, hb4m, hk5⟩ := emap_mem hs5 hb5m
    obtain ⟨b3m, hb3m, hk4⟩ := emap_mem hs4 hb4m
    obtain ⟨b2m, hb2m, hk3⟩ := emap_mem hs3 hb3m
    obtain ⟨b1m, hb1m, hb2me⟩ := List.mem_map.mp hb2m
    obtain ⟨pr, hpr, hk1⟩ := emap_mem hs1 hb1m
    obtain ⟨s, hcell, hb1e⟩ := mStage1_inv hk1
    have eM1 : b.toM7.toM1 = b1m := by
      rw [e7, mStage7_toM1 hk7, mStage7a_toM1 hk7a, mStage6_toM1 hk6,
        mStage5_toM1 hk5, mStage4_toM1 hk4, mStage3_toM1 hk3, ← hb2me]
      rfl
    obtain ⟨sym, e, strk, otype, hparsed, hstrk, hin, _, hexp, hstr, hot⟩ :=
      monolithBuildRow_inv hmb
    refine ⟨(sym, some e, strk, otype), ?_, by rw [hexp], ?_, hot⟩
    · rw [hin]
      have h1 : b.instrName = b1m.instrName := congrArg M1.instrName eM1
      have h2 : b.parsed = b1m.parsed := congrArg M1.parsed eM1
      rw [h1, hb1e]
      rw [hb1e] at h2
      dsimp only at h2
      rw [← h2, hparsed]
    · rw [hstr]
      exact hstrk

/-- counterexample to C7 as stated: the side letter Q is outside the C or P
set, yet the monolith split keeps the code as a "put" and the full monolith
pipeline retains the row. -/
theorem claim_C7_counterexample :
    (split_instrument "ETH-13AUG25-3800-Q").map (fun g => (g.1, g.2.1, g.2.2.2)) =
      some ("ETH", some 20250813, "put") ∧
    (normalize_deribit_csv tSideQ).map (fun l => l.map (fun p =>
        (p.2.instrument_name, p.2.option_type))) =
      .ok [("ETH-13AUG25-3800-Q", "put")] := by
  refine ⟨by decide, by decide⟩

theorem claim_C7_strict_instrument_parsing_witness :
    (∃ row ∈ tBadPos.rows, ∃ s g,
      cellV tBadPos.cols row "instrument_name" = .str s ∧
      studyParseInstr s = some g ∧
      badPosRow.underlying_symbol = g.1 ∧
      badPosRow.option_type = (if g.2.2.2 == 'C' then "call" else "put")) ∧
    (∃ g, split_instrument qRow.instrument_name = some g ∧
      g.2.1 = some qRow.expiration ∧ qRow.strike.isna = false ∧
      qRow.option_type = g.2.2.2) :=
  ⟨claim_C7_strict_instrument_parsing.1 tBadPos [(0, badPosRow)] (by decide)
      (0, badPosRow) (by decide),
   claim_C7_strict_instrument_parsing.2 tSideQ [(0, qRow)] (by decide)
      (0, qRow) (by decide)⟩

theorem normalize_ok_bids {t : Table} {out : List (ℕ × MRow)}
    (h : normalize_deribit_csv t = .ok out) : "bids" ∈ t.cols := by
  unfold normalize_deribit_csv at h
  obtain ⟨u1, _, h⟩ := bind_ok h
  obtain ⟨s1, _, h⟩ := bind_ok h
  obtain ⟨u2, _, h⟩ := bind_ok h
  obtain ⟨u2b, _, h⟩ := bind_ok h
  obtain ⟨s3, _, h⟩ := bind_ok h
  obtain ⟨u3, _, h⟩ := bind_ok h
  obtain ⟨s4, _, h⟩ := bind_ok h
  obtain ⟨u4, hu4, h⟩ := bind_ok h
  unfold requireCol at hu4
  by_cases hb : "bids" ∈ t.cols
  · exact hb
  · rw [if_neg hb] at hu4
    cases hu4

/-- C9 (corrected): neither variant is idempotent because neither projects the
columns its own first pass reads: the study output lacks instrument_name, so a
re-run raises KeyError at the extract of line 51, and the monolith output
lacks the bids ladder column that line 77 requires, so its re-run never
succeeds either. -/
theorem claim_C9_idempotence :
    (∀ (out : List (ℕ × SRow)),
      to_optopsy_frame (toTableS out) = .error (.keyError "instrument_name")) ∧
    (∀ (out res : List (ℕ × MRow)),
      normalize_deribit_csv (toTableM out) ≠ .ok res) := by
  constructor
  · intro out
    rfl
  · intro out res h
    have hb := normalize_ok_bids h
    have : "bids" ∈ monolithCols := hb
    exact absurd this (by decide)

theorem claim_C9_idempotence_witness :
    to_optopsy_frame (toTableS [(0, badPosRow)]) =
      .error (.keyError "instrument_name") ∧
    normalize_deribit_csv (toTableM [(0, qRow)]) ≠ .ok [(0, qRow)] :=
  ⟨claim_C9_idempotence.1 [(0, badPosRow)],
   claim_C9_idempotence.2 [(0, qRow)] [(0, qRow)]⟩

/-- counterexample to C9 as stated: re-running each pipeline on its own
(reachable) normalized output errors instead of succeeding with the same
rows. -/
theorem claim_C9_counterexample :
    to_optopsy_frame tBadPos = .ok [(0, badPosRow)] ∧
    to_optopsy_frame (toTableS [(0, badPosRow)]) =
      .error (.keyError "instrument_name") ∧
    normalize_deribit_csv tSideQ = .ok [(0, qRow)] ∧
    normalize_deribit_csv (toTableM [(0, qRow)]) = .error (.keyError "bids") := by
  refine ⟨by decide, by decide, by decide, by decide⟩
